import Mathlib

/-!
# lljail: Landlock-based path restriction

A shallow embedding of `lljail.c`.  The program is a straight-line protocol of
kernel requests interleaved with argument scanning, so the embedding threads an
explicit `World` (the chronological list of kernel calls with their replies, the
current `errno`, and what was written to the two output streams) through Lean
functions that follow the C control flow statement by statement.

The kernel is an arbitrary oracle `Kernel`: the reply to each call may depend on
the whole history of earlier calls and replies.  A theorem quantified over every
`Kernel` therefore holds for every possible outcome of every kernel call.
-/

namespace Lljail

/-! ## Constants of the system headers

`<linux/landlock.h>` (Landlock ABI 1) and `<errno.h>` are not part of the
repository; the values below are the ones of the Linux UAPI headers. -/

/-- Value of `LANDLOCK_ACCESS_FS_EXECUTE` in `<linux/landlock.h>`: `1ULL << 0`. -/
def LANDLOCK_ACCESS_FS_EXECUTE : Nat := 1 <<< 0
/-- Value of `LANDLOCK_ACCESS_FS_WRITE_FILE` in `<linux/landlock.h>`: `1ULL << 1`. -/
def LANDLOCK_ACCESS_FS_WRITE_FILE : Nat := 1 <<< 1
/-- Value of `LANDLOCK_ACCESS_FS_READ_FILE` in `<linux/landlock.h>`: `1ULL << 2`. -/
def LANDLOCK_ACCESS_FS_READ_FILE : Nat := 1 <<< 2
/-- Value of `LANDLOCK_ACCESS_FS_READ_DIR` in `<linux/landlock.h>`: `1ULL << 3`. -/
def LANDLOCK_ACCESS_FS_READ_DIR : Nat := 1 <<< 3
/-- Value of `LANDLOCK_ACCESS_FS_REMOVE_DIR` in `<linux/landlock.h>`: `1ULL << 4`. -/
def LANDLOCK_ACCESS_FS_REMOVE_DIR : Nat := 1 <<< 4
/-- Value of `LANDLOCK_ACCESS_FS_REMOVE_FILE` in `<linux/landlock.h>`: `1ULL << 5`. -/
def LANDLOCK_ACCESS_FS_REMOVE_FILE : Nat := 1 <<< 5
/-- Value of `LANDLOCK_ACCESS_FS_MAKE_CHAR` in `<linux/landlock.h>`: `1ULL << 6`. -/
def LANDLOCK_ACCESS_FS_MAKE_CHAR : Nat := 1 <<< 6
/-- Value of `LANDLOCK_ACCESS_FS_MAKE_DIR` in `<linux/landlock.h>`: `1ULL << 7`. -/
def LANDLOCK_ACCESS_FS_MAKE_DIR : Nat := 1 <<< 7
/-- Value of `LANDLOCK_ACCESS_FS_MAKE_REG` in `<linux/landlock.h>`: `1ULL << 8`. -/
def LANDLOCK_ACCESS_FS_MAKE_REG : Nat := 1 <<< 8
/-- Value of `LANDLOCK_ACCESS_FS_MAKE_SOCK` in `<linux/landlock.h>`: `1ULL << 9`. -/
def LANDLOCK_ACCESS_FS_MAKE_SOCK : Nat := 1 <<< 9
/-- Value of `LANDLOCK_ACCESS_FS_MAKE_FIFO` in `<linux/landlock.h>`: `1ULL << 10`. -/
def LANDLOCK_ACCESS_FS_MAKE_FIFO : Nat := 1 <<< 10
/-- Value of `LANDLOCK_ACCESS_FS_MAKE_BLOCK` in `<linux/landlock.h>`: `1ULL << 11`. -/
def LANDLOCK_ACCESS_FS_MAKE_BLOCK : Nat := 1 <<< 11
/-- Value of `LANDLOCK_ACCESS_FS_MAKE_SYM` in `<linux/landlock.h>`: `1ULL << 12`. -/
def LANDLOCK_ACCESS_FS_MAKE_SYM : Nat := 1 <<< 12

/-- Value of `ENOSYS` in the Linux `<errno.h>` (asm-generic). -/
def ENOSYS : Int := 38
/-- Value of `EOPNOTSUPP` in the Linux `<errno.h>` (asm-generic). -/
def EOPNOTSUPP : Int := 95

/-! ## Access masks (`lljail.c`, lines 51-71)

The masks are `__u64` values; every one of them is below `2 ^ 13`, so the
bitwise operations on `Nat` never leave the 64-bit range. -/

/-- The macro `ACCESS_FILE`. -/
def ACCESS_FILE : Nat :=
  LANDLOCK_ACCESS_FS_EXECUTE |||
  LANDLOCK_ACCESS_FS_WRITE_FILE |||
  LANDLOCK_ACCESS_FS_READ_FILE

/-- The macro `ACCESS_FS_ROUGHLY_READ`. -/
def ACCESS_FS_ROUGHLY_READ : Nat :=
  LANDLOCK_ACCESS_FS_EXECUTE |||
  LANDLOCK_ACCESS_FS_READ_FILE |||
  LANDLOCK_ACCESS_FS_READ_DIR

/-- The macro `ACCESS_FS_ROUGHLY_WRITE`. -/
def ACCESS_FS_ROUGHLY_WRITE : Nat :=
  LANDLOCK_ACCESS_FS_WRITE_FILE |||
  LANDLOCK_ACCESS_FS_REMOVE_DIR |||
  LANDLOCK_ACCESS_FS_REMOVE_FILE |||
  LANDLOCK_ACCESS_FS_MAKE_CHAR |||
  LANDLOCK_ACCESS_FS_MAKE_DIR |||
  LANDLOCK_ACCESS_FS_MAKE_REG |||
  LANDLOCK_ACCESS_FS_MAKE_SOCK |||
  LANDLOCK_ACCESS_FS_MAKE_FIFO |||
  LANDLOCK_ACCESS_FS_MAKE_BLOCK |||
  LANDLOCK_ACCESS_FS_MAKE_SYM

/-! ## Kernel interface -/

/-- What a returning kernel call hands back: the return value, and the value
`errno` takes when the call failed (return value below zero). -/
structure Reply where
  ret : Int
  errno : Int
  deriving DecidableEq

/-- The kernel requests of `lljail.c` that always return to the caller, with
the arguments the program chooses. -/
inductive Call where
  /-- `landlock_create_ruleset(&attr, sizeof(attr), 0)` with `attr.handled_access_fs`. -/
  | landlock_create_ruleset (handled_access_fs : Nat)
  /-- `open(path, O_PATH | O_CLOEXEC)`. -/
  | open_path (path : String)
  /-- `landlock_add_rule(ruleset_fd, LANDLOCK_RULE_PATH_BENEATH, &path_beneath, 0)`. -/
  | landlock_add_rule (ruleset_fd : Int) (parent_fd : Int) (allowed_access : Nat)
  /-- `close(fd)`. -/
  | close (fd : Int)
  /-- `prctl(PR_SET_NO_NEW_PRIVS, 1, 0, 0, 0)`. -/
  | prctl_no_new_privs
  /-- `landlock_restrict_self(ruleset_fd, 0)`. -/
  | landlock_restrict_self (ruleset_fd : Int)
  deriving DecidableEq

/-- One entry of the kernel-call trace.  `execvpe` is apart because it returns
only when it fails: its reply is `none` when the process image was replaced and
`some e` when it returned `-1` with `errno = e`.  Its first argument is
`argv[0]`, which is `NULL` (`none`) when nothing follows the separator. -/
inductive Event where
  | sys (c : Call) (r : Reply)
  | execvpe (file : Option String) (argv : List String) (envp : List String)
      (r : Option Int)
  deriving DecidableEq

/-- A kernel behaviour: the reply to a request, given every earlier request and
its reply. -/
structure Kernel where
  sys : List Event → Call → Reply
  execvpe : List Event → Option String → List String → List String → Option Int

/-- An argument of a `fprintf` format. -/
inductive FmtArg where
  | str (s : Option String)
  | strerror (errno : Int)
  deriving DecidableEq

/-- One write to the error stream. -/
inductive Diag where
  | perror (s : String) (errno : Int)
  | fprintf (format : String) (args : List FmtArg)
  deriving DecidableEq

/-- The state the program threads through its statements. -/
structure World where
  /-- Kernel calls made so far, oldest first. -/
  calls : List Event
  /-- Current value of `errno`. -/
  errno : Int
  /-- Lines written with `puts`. -/
  stdout : List String
  /-- Writes to `stderr`. -/
  stderr : List Diag
  deriving DecidableEq

/-- How the program ends: `main` returns a status, or `execvpe` replaced the
process image and `main` never returns. -/
inductive Outcome where
  | returned (status : Int)
  | replaced
  deriving DecidableEq

/-- The final state together with the way the program ended. -/
structure Result where
  world : World
  outcome : Outcome
  deriving DecidableEq

/-- The state at program start. -/
def World.init : World := ⟨[], 0, [], []⟩

/-- Issue a returning kernel call: ask the kernel, log the call and its reply,
and update `errno` when the call failed. -/
def World.syscall (K : Kernel) (w : World) (c : Call) : Reply × World :=
  let r := K.sys w.calls c
  (r, { w with calls := w.calls ++ [Event.sys c r],
               errno := if r.ret < 0 then r.errno else w.errno })

/-- The library call `perror(s)`. -/
def World.perror (w : World) (s : String) : World :=
  { w with stderr := w.stderr ++ [Diag.perror s w.errno] }

/-- The library call `fprintf(stderr, format, args...)`. -/
def World.fprintf (w : World) (format : String) (args : List FmtArg) : World :=
  { w with stderr := w.stderr ++ [Diag.fprintf format args] }

/-- The library call `puts(s)`. -/
def World.puts (w : World) (s : String) : World :=
  { w with stdout := w.stdout ++ [s] }

/-! ## The program -/

/-- The function `populate_ruleset` (`lljail.c`, lines 73-91). -/
def populate_ruleset (K : Kernel) (w : World) (ruleset_fd : Int) (path : String)
    (allowed_access : Nat) : Int × World :=
  let (r_open, w) := w.syscall K (Call.open_path path)
  let fd := r_open.ret
  let (r_add, w) := w.syscall K (Call.landlock_add_rule ruleset_fd fd allowed_access)
  if r_add.ret ≠ 0 then
    let w := w.perror "failed to update ruleset"
    let (_, w) := w.syscall K (Call.close fd)
    (1, w)
  else
    let (_, w) := w.syscall K (Call.close fd)
    (0, w)

/-- The end of `main` after the directive loop (`lljail.c`, lines 163-187);
`argv` is what the loop left unread. -/
def main_rest (K : Kernel) (ruleset_fd : Int) (envp : List String)
    (argv : List String) (w : World) : Result :=
  match argv with
  | [] => ⟨w.fprintf "Needs -- before command\n" [], Outcome.returned 1⟩
  | a :: argv =>
    if a ≠ "--" then
      ⟨w.fprintf "Needs -- before command\n" [], Outcome.returned 1⟩
    else
      let (r_prctl, w) := w.syscall K Call.prctl_no_new_privs
      if r_prctl.ret ≠ 0 then
        ⟨w.perror "Failed to restrict privileges", Outcome.returned 1⟩
      else
        let (r_restrict, w) := w.syscall K (Call.landlock_restrict_self ruleset_fd)
        if r_restrict.ret ≠ 0 then
          ⟨w.perror "Failed to enforce ruleset", Outcome.returned 1⟩
        else
          let (_, w) := w.syscall K (Call.close ruleset_fd)
          let cmd_path := argv.head?
          let cmd_argv := argv
          let r_exec := K.execvpe w.calls cmd_path cmd_argv envp
          let w := { w with calls := w.calls ++ [Event.execvpe cmd_path cmd_argv envp r_exec] }
          match r_exec with
          | none => ⟨w, Outcome.replaced⟩
          | some e =>
            let w := { w with errno := e }
            let w := w.fprintf "Failed to execute \"%s\": %s\n"
              [FmtArg.str cmd_path, FmtArg.strerror w.errno]
            let w := w.fprintf
              "Hint: access to the binary, the interpreter or shared libraries may be denied.\n" []
            ⟨w, Outcome.returned 1⟩

/-- The directive loop of `main` (`lljail.c`, lines 129-161), running on into
`main_rest` when the loop condition fails.  `argv` is the part of the argument
vector not yet read; the empty list is the terminating `NULL`. -/
def main_loop (K : Kernel) (ruleset_fd : Int) (envp : List String) :
    List String → World → Result
  | [], w => main_rest K ruleset_fd envp [] w
  | a :: argv, w =>
    if a = "--" then main_rest K ruleset_fd envp (a :: argv) w
    else
      let allowed_access : Option Nat :=
        if a = "-r" then some ACCESS_FS_ROUGHLY_READ
        else if a = "-rw" then some (ACCESS_FS_ROUGHLY_READ ||| ACCESS_FS_ROUGHLY_WRITE)
        else if a = "-w" then some ACCESS_FS_ROUGHLY_WRITE
        else none
      match allowed_access with
      | none =>
        ⟨w.fprintf "Unknown flag %s. Use -r, -rw or -w.\n" [FmtArg.str (some a)],
          Outcome.returned 1⟩
      | some allowed_access =>
        match argv with
        | [] => ⟨w.perror "Missing filename after flag", Outcome.returned 1⟩
        | p :: argv =>
          if p = "file" then
            let allowed_access := allowed_access &&& ACCESS_FILE
            match argv with
            | [] => ⟨w.perror "Missing filename after flag", Outcome.returned 1⟩
            | q :: argv =>
              let (ret, w) := populate_ruleset K w ruleset_fd q allowed_access
              if ret ≠ 0 then
                ⟨w.perror "Could not populate ruleset", Outcome.returned 1⟩
              else main_loop K ruleset_fd envp argv w
          else
            let (ret, w) := populate_ruleset K w ruleset_fd p allowed_access
            if ret ≠ 0 then
              ⟨w.perror "Could not populate ruleset", Outcome.returned 1⟩
            else main_loop K ruleset_fd envp argv w

/-- The lines `puts` prints for `-h` (`lljail.c`, lines 96-109). -/
def usage : List String :=
  [ "Usage:",
    "  lljail [OPTIONS...] -- [ARGV...]",
    "",
    "Options:",
    "  -r PATH     permit only reading for the path",
    "  -rw PATH    permit reading and writing",
    "  -w PATH     permit only writing",
    "",
    "  In order to only give file (not directory) permissions,",
    "  you can pass two arguments, a literal 'file' and the path.",
    "  Example: lljail -r file /dev/random ... -- /bin/bash",
    "",
    "Example:",
    "  lljail -r /usr -r /bin -r /tmp -r /etc -r /root -- /bin/bash" ]

/-- The function `main` (`lljail.c`, lines 93-188).  `argv` is the whole
argument vector, program name first; `argv.tail` is the `argv++` of line 94
(`argc` is only ever decremented, never read). -/
def main (K : Kernel) (argv : List String) (envp : List String) : Result :=
  let argv := argv.tail
  let w := World.init
  if argv.head? = some "-h" then
    ⟨usage.foldl World.puts w, Outcome.returned 0⟩
  else
    let (r_create, w) := w.syscall K
      (Call.landlock_create_ruleset (ACCESS_FS_ROUGHLY_READ ||| ACCESS_FS_ROUGHLY_WRITE))
    let ruleset_fd := r_create.ret
    if ruleset_fd < 0 then
      let w :=
        if w.errno = ENOSYS then w.perror "Landlock is not supported by your kernel"
        else if w.errno = EOPNOTSUPP then w.perror "Landlock is not enabled in your kernel"
        else w.perror "Unknown error"
      ⟨w, Outcome.returned 1⟩
    else main_loop K ruleset_fd envp argv w

/-! ## Vocabulary of the specification -/

/-- The three grant classes of a directive: `-r`, `-rw`, `-w`. -/
inductive AccessClass where
  | Read
  | ReadWrite
  | Write
  deriving DecidableEq

/-- The command-line flag that selects a grant class. -/
def AccessClass.flag : AccessClass → String
  | AccessClass.Read => "-r"
  | AccessClass.ReadWrite => "-rw"
  | AccessClass.Write => "-w"

/-- The reference function `effective(grantClass, fileOnly)` as the
specification words it: the class maps to roughly-read, roughly-read or
roughly-write, roughly-write, and `fileOnly` intersects the result with the
file-applicable rights. -/
def effective (grantClass : AccessClass) (fileOnly : Bool) : Nat :=
  let granted :=
    match grantClass with
    | AccessClass.Read => ACCESS_FS_ROUGHLY_READ
    | AccessClass.ReadWrite => ACCESS_FS_ROUGHLY_READ ||| ACCESS_FS_ROUGHLY_WRITE
    | AccessClass.Write => ACCESS_FS_ROUGHLY_WRITE
  if fileOnly then granted &&& ACCESS_FILE else granted

/-- Number of bits set in a 64-bit access mask. -/
def bitCount (mask : Nat) : Nat :=
  ((List.range 64).filter (fun i => mask.testBit i)).length

/-- A directive of the command line: grant class, file-only modifier, path. -/
structure Directive where
  grantClass : AccessClass
  fileOnly : Bool
  path : String
  deriving DecidableEq

/-- The way a directive is written on the command line: the flag, then the
literal token `file` iff the directive is file-only, then the path. -/
def Directive.tokens (d : Directive) : List String :=
  d.grantClass.flag :: ((if d.fileOnly then ["file"] else []) ++ [d.path])

/-- The command line of a sequence of directives. -/
def directiveTokens (ds : List Directive) : List String :=
  ds.flatMap Directive.tokens

/-- A directive whose tokens read back as itself: without the file-only
modifier its path is not the literal token `file`. -/
def Directive.wellFormed (d : Directive) : Prop :=
  d.fileOnly = true ∨ d.path ≠ "file"

instance (d : Directive) : Decidable d.wellFormed := by
  unfold Directive.wellFormed; infer_instance

/-! ## Reading the kernel-call trace -/

/-- The entry is a `landlock_create_ruleset` call. -/
def Event.isCreate : Event → Bool
  | Event.sys (Call.landlock_create_ruleset _) _ => true
  | _ => false

/-- The entry is a `landlock_add_rule` call (the attach call). -/
def Event.isAddRule : Event → Bool
  | Event.sys (Call.landlock_add_rule _ _ _) _ => true
  | _ => false

/-- The entry is the `prctl(PR_SET_NO_NEW_PRIVS)` call. -/
def Event.isPrctl : Event → Bool
  | Event.sys Call.prctl_no_new_privs _ => true
  | _ => false

/-- The entry is a `landlock_restrict_self` call. -/
def Event.isRestrictSelf : Event → Bool
  | Event.sys (Call.landlock_restrict_self _) _ => true
  | _ => false

/-- The entry is an `execvpe` call. -/
def Event.isExecvpe : Event → Bool
  | Event.execvpe _ _ _ _ => true
  | _ => false

/-- The call returned success, by the test the program applies to it:
`landlock_create_ruleset` and `open` return a descriptor (not below zero), the
other returning calls return zero.  `execvpe` is never counted as successful
here, since it returns only on failure. -/
def Event.succeeded : Event → Bool
  | Event.sys (Call.landlock_create_ruleset _) r => decide (0 ≤ r.ret)
  | Event.sys (Call.open_path _) r => decide (0 ≤ r.ret)
  | Event.sys _ r => decide (r.ret = 0)
  | Event.execvpe _ _ _ _ => false

/-- The paths of the `open` calls of a trace, in order. -/
def openedPaths (tr : List Event) : List String :=
  tr.filterMap fun e =>
    match e with
    | Event.sys (Call.open_path p) _ => some p
    | _ => none

/-- The access masks of the attach calls of a trace, in order. -/
def attachedAccess (tr : List Event) : List Nat :=
  tr.filterMap fun e =>
    match e with
    | Event.sys (Call.landlock_add_rule _ _ a) _ => some a
    | _ => none

/-! ## The open-descriptor set -/

/-- Effect of one kernel call on the set of open descriptors: a call that
returns a new descriptor (`landlock_create_ruleset`, `open`, on success) adds
it, `close` removes its argument, nothing else changes the set. -/
def fdStep (fds : Finset Int) : Event → Finset Int
  | Event.sys (Call.landlock_create_ruleset _) r =>
    if 0 ≤ r.ret then insert r.ret fds else fds
  | Event.sys (Call.open_path _) r =>
    if 0 ≤ r.ret then insert r.ret fds else fds
  | Event.sys (Call.close fd) _ => fds.erase fd
  | _ => fds

/-- The set of open descriptors after a trace, starting from `fds`. -/
def openFds (fds : Finset Int) (tr : List Event) : Finset Int :=
  tr.foldl fdStep fds

/-! ## Sample kernels -/

/-- A kernel on which everything succeeds: descriptors are handed out in
increasing order from 3, and `execvpe` replaces the process image. -/
def kernelOk : Kernel where
  sys := fun h c =>
    match c with
    | Call.landlock_create_ruleset _ => ⟨3 + h.length, 0⟩
    | Call.open_path _ => ⟨3 + h.length, 0⟩
    | _ => ⟨0, 0⟩
  execvpe := fun _ _ _ _ => none

/-- A kernel without Landlock: `landlock_create_ruleset` fails with `ENOSYS`. -/
def kernelNoLandlock : Kernel where
  sys := fun _ c =>
    match c with
    | Call.landlock_create_ruleset _ => ⟨-1, ENOSYS⟩
    | Call.open_path _ => ⟨4, 0⟩
    | _ => ⟨0, 0⟩
  execvpe := fun _ _ _ _ => none

/-- A kernel on which no path resolves (`open` fails with `ENOENT = 2`) and
which answers every other call with success, the attach call included. -/
def kernelLenientAttach : Kernel where
  sys := fun _ c =>
    match c with
    | Call.landlock_create_ruleset _ => ⟨3, 0⟩
    | Call.open_path _ => ⟨-1, 2⟩
    | _ => ⟨0, 0⟩
  execvpe := fun _ _ _ _ => none

/-- A kernel like the real one on a missing path: `open` fails with
`ENOENT = 2` and the attach call rejects the invalid descriptor with
`EBADF = 9`. -/
def kernelRejectAttach : Kernel where
  sys := fun _ c =>
    match c with
    | Call.landlock_create_ruleset _ => ⟨3, 0⟩
    | Call.open_path _ => ⟨-1, 2⟩
    | Call.landlock_add_rule _ _ _ => ⟨-1, 9⟩
    | _ => ⟨0, 0⟩
  execvpe := fun _ _ _ _ => none

/-- A kernel on which `prctl` fails with `EINVAL = 22` and everything else
succeeds. -/
def kernelPrctlFails : Kernel where
  sys := fun h c =>
    match c with
    | Call.landlock_create_ruleset _ => ⟨3 + h.length, 0⟩
    | Call.open_path _ => ⟨3 + h.length, 0⟩
    | Call.prctl_no_new_privs => ⟨-1, 22⟩
    | _ => ⟨0, 0⟩
  execvpe := fun _ _ _ _ => none

/-- The reply to the attach call inside `populate_ruleset`. -/
def attachReply (K : Kernel) (w : World) (ruleset_fd : Int) (path : String)
    (allowed_access : Nat) : Reply :=
  K.sys (w.calls ++ [Event.sys (Call.open_path path) (K.sys w.calls (Call.open_path path))])
    (Call.landlock_add_rule ruleset_fd (K.sys w.calls (Call.open_path path)).ret allowed_access)

/-! ## The shape of a run -/

/-- What the end of `main` (from the test for `--` on) adds to the trace, and
how the program then ends. -/
inductive TailRun : List Event → Outcome → Prop
  | stopped : TailRun [] (Outcome.returned 1)
  | prctl_failed (r : Reply) : r.ret ≠ 0 →
      TailRun [Event.sys Call.prctl_no_new_privs r] (Outcome.returned 1)
  | restrict_failed (r1 r2 : Reply) (fd : Int) : r1.ret = 0 → r2.ret ≠ 0 →
      TailRun [Event.sys Call.prctl_no_new_privs r1,
        Event.sys (Call.landlock_restrict_self fd) r2] (Outcome.returned 1)
  | exec_failed (r1 r2 r3 : Reply) (fd : Int) (file : Option String)
      (argv envp : List String) (e : Int) : r1.ret = 0 → r2.ret = 0 →
      TailRun [Event.sys Call.prctl_no_new_privs r1,
        Event.sys (Call.landlock_restrict_self fd) r2,
        Event.sys (Call.close fd) r3,
        Event.execvpe file argv envp (some e)] (Outcome.returned 1)
  | exec_done (r1 r2 r3 : Reply) (fd : Int) (file : Option String)
      (argv envp : List String) : r1.ret = 0 → r2.ret = 0 →
      TailRun [Event.sys Call.prctl_no_new_privs r1,
        Event.sys (Call.landlock_restrict_self fd) r2,
        Event.sys (Call.close fd) r3,
        Event.execvpe file argv envp none] Outcome.replaced

/-- What the directive loop followed by the end of `main` adds to the trace:
any number of accepted attachments (`open`, `landlock_add_rule` returning
zero, `close`), then either a rejected attachment and exit status 1, or a
`TailRun`. -/
inductive LoopRun : List Event → Outcome → Prop
  | tail (t : List Event) (out : Outcome) : TailRun t out → LoopRun t out
  | rejected (p : String) (ro : Reply) (rfd fd : Int) (acc : Nat) (ra rc : Reply) :
      ra.ret ≠ 0 →
      LoopRun [Event.sys (Call.open_path p) ro,
        Event.sys (Call.landlock_add_rule rfd fd acc) ra,
        Event.sys (Call.close fd) rc] (Outcome.returned 1)
  | attached (p : String) (ro : Reply) (rfd fd : Int) (acc : Nat) (ra rc : Reply)
      (rest : List Event) (out : Outcome) :
      ra.ret = 0 → LoopRun rest out →
      LoopRun (Event.sys (Call.open_path p) ro ::
        Event.sys (Call.landlock_add_rule rfd fd acc) ra ::
        Event.sys (Call.close fd) rc :: rest) out

/-- The whole trace of `main`: nothing for `-h`, otherwise the creation of the
ruleset and, when it succeeded, a `LoopRun`. -/
inductive MainRun : List Event → Outcome → Prop
  | help : MainRun [] (Outcome.returned 0)
  | create_failed (h : Nat) (r : Reply) : r.ret < 0 →
      MainRun [Event.sys (Call.landlock_create_ruleset h) r] (Outcome.returned 1)
  | created (h : Nat) (r : Reply) (ext : List Event) (out : Outcome) : 0 ≤ r.ret →
      LoopRun ext out →
      MainRun (Event.sys (Call.landlock_create_ruleset h) r :: ext) out

/-! ## Ordering properties of a trace -/

/-- Every `landlock_restrict_self` call of the trace comes after a
`prctl(PR_SET_NO_NEW_PRIVS)` call that returned success. -/
def RestrictAfterPrctl (tr : List Event) : Prop :=
  ∀ pre e post, tr = pre ++ e :: post → e.isRestrictSelf = true →
    ∃ p ∈ pre, p.isPrctl = true ∧ p.succeeded = true

/-- Every `execvpe` call of the trace comes after a `landlock_restrict_self`
call that returned success. -/
def ExecAfterRestrict (tr : List Event) : Prop :=
  ∀ pre e post, tr = pre ++ e :: post → e.isExecvpe = true →
    ∃ p ∈ pre, p.isRestrictSelf = true ∧ p.succeeded = true

/-- A `prctl` or `landlock_restrict_self` call that failed is the last kernel
call of the trace, and the program returned 1. -/
def FailureIsFinal (tr : List Event) (out : Outcome) : Prop :=
  ∀ pre e post, tr = pre ++ e :: post →
    (e.isPrctl = true ∨ e.isRestrictSelf = true) → e.succeeded = false →
    post = [] ∧ out = Outcome.returned 1

/-- A rejected attach call ends the run: the only kernel call after it closes
the path descriptor it was given, the program returned 1, and the trace has no
`prctl`, `landlock_restrict_self` or `execvpe` call. -/
def RejectionIsFinal (tr : List Event) (out : Outcome) : Prop :=
  ∀ pre rfd fd acc ra post,
    tr = pre ++ Event.sys (Call.landlock_add_rule rfd fd acc) ra :: post → ra.ret ≠ 0 →
    out = Outcome.returned 1 ∧
    (∃ rc, post = [Event.sys (Call.close fd) rc]) ∧
    ∀ x ∈ tr, x.isPrctl = false ∧ x.isRestrictSelf = false ∧ x.isExecvpe = false

/-! ## Attaching a sequence of directives -/

/-- The reference run of the directive loop: one `populate_ruleset` call per
directive, in order, each with the path of the directive and the mask
`effective grantClass fileOnly`. -/
def attachAll (K : Kernel) (ruleset_fd : Int) (ds : List Directive) (w : World) : World :=
  ds.foldl
    (fun w d => (populate_ruleset K w ruleset_fd d.path (effective d.grantClass d.fileOnly)).2)
    w

/-! # Theorems -/

/-! ## Unfolding the program -/

theorem populate_ruleset_fst (K : Kernel) (w : World) (rfd : Int) (path : String) (acc : Nat) :
    (populate_ruleset K w rfd path acc).1
      = if (attachReply K w rfd path acc).ret ≠ 0 then 1 else 0 := by
  unfold populate_ruleset attachReply World.syscall
  by_cases h : (K.sys (w.calls ++ [Event.sys (Call.open_path path) (K.sys w.calls (Call.open_path path))])
    (Call.landlock_add_rule rfd (K.sys w.calls (Call.open_path path)).ret acc)).ret = 0
  · simp [h]
  · simp [h]

theorem populate_ruleset_calls (K : Kernel) (w : World) (rfd : Int) (path : String) (acc : Nat) :
    ∃ r_close : Reply, (populate_ruleset K w rfd path acc).2.calls
      = w.calls ++
        [Event.sys (Call.open_path path) (K.sys w.calls (Call.open_path path)),
         Event.sys (Call.landlock_add_rule rfd (K.sys w.calls (Call.open_path path)).ret acc)
           (attachReply K w rfd path acc),
         Event.sys (Call.close (K.sys w.calls (Call.open_path path)).ret) r_close] := by
  unfold populate_ruleset attachReply World.syscall World.perror
  by_cases h : (K.sys (w.calls ++ [Event.sys (Call.open_path path) (K.sys w.calls (Call.open_path path))])
    (Call.landlock_add_rule rfd (K.sys w.calls (Call.open_path path)).ret acc)).ret = 0
  · simp [h]
  · simp [h]

theorem flag_cases (a : String) :
    (∃ c : AccessClass, a = c.flag) ∨ (a ≠ "-r" ∧ a ≠ "-rw" ∧ a ≠ "-w") := by
  by_cases h1 : a = "-r"
  · exact Or.inl ⟨AccessClass.Read, h1⟩
  · by_cases h2 : a = "-rw"
    · exact Or.inl ⟨AccessClass.ReadWrite, h2⟩
    · by_cases h3 : a = "-w"
      · exact Or.inl ⟨AccessClass.Write, h3⟩
      · exact Or.inr ⟨h1, h2, h3⟩

theorem flag_ne_help (c : AccessClass) : c.flag ≠ "-h" := by
  cases c <;> decide

theorem main_loop_nil (K : Kernel) (rfd : Int) (envp : List String) (w : World) :
    main_loop K rfd envp [] w = main_rest K rfd envp [] w := by
  rw [main_loop]

theorem main_loop_sep (K : Kernel) (rfd : Int) (envp : List String) (argv : List String)
    (w : World) :
    main_loop K rfd envp ("--" :: argv) w = main_rest K rfd envp ("--" :: argv) w := by
  rw [main_loop]; simp

theorem main_loop_unknown (K : Kernel) (rfd : Int) (envp : List String) (a : String)
    (argv : List String) (w : World)
    (h0 : a ≠ "--") (h1 : a ≠ "-r") (h2 : a ≠ "-rw") (h3 : a ≠ "-w") :
    main_loop K rfd envp (a :: argv) w
      = ⟨w.fprintf "Unknown flag %s. Use -r, -rw or -w.\n" [FmtArg.str (some a)],
          Outcome.returned 1⟩ := by
  rw [main_loop]; simp [h0, h1, h2, h3]

theorem main_loop_flag_nil (K : Kernel) (rfd : Int) (envp : List String) (c : AccessClass)
    (w : World) :
    main_loop K rfd envp [c.flag] w
      = ⟨w.perror "Missing filename after flag", Outcome.returned 1⟩ := by
  cases c <;> (rw [main_loop]; simp [AccessClass.flag])

theorem main_loop_flag_file_nil (K : Kernel) (rfd : Int) (envp : List String)
    (c : AccessClass) (w : World) :
    main_loop K rfd envp [c.flag, "file"] w
      = ⟨w.perror "Missing filename after flag", Outcome.returned 1⟩ := by
  cases c <;> (rw [main_loop]; simp [AccessClass.flag])

theorem main_loop_flag_file (K : Kernel) (rfd : Int) (envp : List String) (c : AccessClass)
    (q : String) (argv : List String) (w : World) :
    main_loop K rfd envp (c.flag :: "file" :: q :: argv) w
      = if (populate_ruleset K w rfd q (effective c true)).1 ≠ 0 then
          ⟨(populate_ruleset K w rfd q (effective c true)).2.perror
            "Could not populate ruleset", Outcome.returned 1⟩
        else main_loop K rfd envp argv (populate_ruleset K w rfd q (effective c true)).2 := by
  cases c <;> (rw [main_loop]; simp [AccessClass.flag, effective])

theorem main_loop_flag_path (K : Kernel) (rfd : Int) (envp : List String) (c : AccessClass)
    (p : String) (argv : List String) (w : World) (hp : p ≠ "file") :
    main_loop K rfd envp (c.flag :: p :: argv) w
      = if (populate_ruleset K w rfd p (effective c false)).1 ≠ 0 then
          ⟨(populate_ruleset K w rfd p (effective c false)).2.perror
            "Could not populate ruleset", Outcome.returned 1⟩
        else main_loop K rfd envp argv (populate_ruleset K w rfd p (effective c false)).2 := by
  cases c <;> (rw [main_loop]; simp [AccessClass.flag, effective, hp])

theorem main_loop_induction (K : Kernel) (rfd : Int) (envp : List String)
    (P : List String → World → Result → Prop)
    (h_rest : ∀ argv w, P argv w (main_rest K rfd envp argv w))
    (h_usage : ∀ a argv w d, a ≠ "--" →
      P (a :: argv) w ⟨{ w with stderr := w.stderr ++ [d] }, Outcome.returned 1⟩)
    (h_reject : ∀ a pre path rest w acc, a ≠ "--" →
      (populate_ruleset K w rfd path acc).1 ≠ 0 →
      P (a :: (pre ++ path :: rest)) w
        ⟨(populate_ruleset K w rfd path acc).2.perror "Could not populate ruleset",
          Outcome.returned 1⟩)
    (h_attach : ∀ a pre path rest w acc R, a ≠ "--" →
      (populate_ruleset K w rfd path acc).1 = 0 →
      P rest (populate_ruleset K w rfd path acc).2 R →
      P (a :: (pre ++ path :: rest)) w R) :
    ∀ argv w, P argv w (main_loop K rfd envp argv w) := by
  intro argv
  generalize hn : argv.length = n
  induction n using Nat.strong_induction_on generalizing argv with
  | _ n ih =>
    intro w
    rcases argv with _ | ⟨a, argv⟩
    · rw [main_loop_nil]; exact h_rest [] w
    by_cases ha : a = "--"
    · subst ha; rw [main_loop_sep]; exact h_rest _ w
    rcases flag_cases a with ⟨c, rfl⟩ | ⟨h1, h2, h3⟩
    swap
    · rw [main_loop_unknown K rfd envp a argv w ha h1 h2 h3]
      exact h_usage a argv w _ ha
    rcases argv with _ | ⟨p, argv⟩
    · rw [main_loop_flag_nil]; exact h_usage _ _ w _ ha
    by_cases hp : p = "file"
    · subst hp
      rcases argv with _ | ⟨q, argv⟩
      · rw [main_loop_flag_file_nil]; exact h_usage _ _ w _ ha
      rw [main_loop_flag_file]
      by_cases hr : (populate_ruleset K w rfd q (effective c true)).1 = 0
      · rw [if_neg (by simpa using hr)]
        refine h_attach c.flag ["file"] q argv w _ _ ha hr ?_
        exact ih argv.length (by simp at hn; omega) argv rfl _
      · rw [if_pos hr]
        exact h_reject c.flag ["file"] q argv w _ ha hr
    · rw [main_loop_flag_path K rfd envp c p argv w hp]
      by_cases hr : (populate_ruleset K w rfd p (effective c false)).1 = 0
      · rw [if_neg (by simpa using hr)]
        refine h_attach c.flag [] p argv w _ _ ha hr ?_
        exact ih argv.length (by simp at hn; omega) argv rfl _
      · rw [if_pos hr]
        exact h_reject c.flag [] p argv w _ ha hr


/-! ## Every run has the shape of the protocol -/

theorem main_rest_run (K : Kernel) (rfd : Int) (envp : List String) (argv : List String)
    (w : World) :
    ∃ t, (main_rest K rfd envp argv w).world.calls = w.calls ++ t ∧
      TailRun t (main_rest K rfd envp argv w).outcome := by
  unfold main_rest
  rcases argv with _ | ⟨a, argv⟩
  · exact ⟨[], by simp [World.fprintf], TailRun.stopped⟩
  by_cases ha : a = "--"
  swap
  · exact ⟨[], by simp [ha, World.fprintf], by simpa [ha] using TailRun.stopped⟩
  subst ha
  simp only [ne_eq, not_true_eq_false, if_false, World.syscall]
  by_cases h1 : (K.sys w.calls Call.prctl_no_new_privs).ret = 0
  swap
  · refine ⟨[Event.sys Call.prctl_no_new_privs (K.sys w.calls Call.prctl_no_new_privs)], ?_, ?_⟩
    · simp [h1, World.perror]
    · simpa [h1] using TailRun.prctl_failed _ h1
  simp only [h1, not_true_eq_false, if_false]
  generalize hr2 : K.sys (w.calls ++ [Event.sys Call.prctl_no_new_privs
    (K.sys w.calls Call.prctl_no_new_privs)]) (Call.landlock_restrict_self rfd) = r2
  by_cases h2 : r2.ret = 0
  swap
  · refine ⟨[Event.sys Call.prctl_no_new_privs (K.sys w.calls Call.prctl_no_new_privs),
      Event.sys (Call.landlock_restrict_self rfd) r2], ?_, ?_⟩
    · simp [h2, World.perror]
    · simpa [h2] using TailRun.restrict_failed _ _ rfd h1 h2
  simp only [h2, not_true_eq_false, if_false]
  generalize hr3 : K.sys (w.calls ++ [Event.sys Call.prctl_no_new_privs
    (K.sys w.calls Call.prctl_no_new_privs)] ++ [Event.sys (Call.landlock_restrict_self rfd) r2])
    (Call.close rfd) = r3
  generalize hx : K.execvpe (w.calls ++ [Event.sys Call.prctl_no_new_privs
    (K.sys w.calls Call.prctl_no_new_privs)] ++ [Event.sys (Call.landlock_restrict_self rfd) r2]
    ++ [Event.sys (Call.close rfd) r3]) argv.head? argv envp = x
  rcases x with _ | e
  · exact ⟨_, by simp, TailRun.exec_done _ r2 r3 rfd argv.head? argv envp h1 h2⟩
  · exact ⟨_, by simp [World.fprintf],
      TailRun.exec_failed _ r2 r3 rfd argv.head? argv envp e h1 h2⟩

theorem main_loop_run (K : Kernel) (rfd : Int) (envp : List String) (argv : List String)
    (w : World) :
    ∃ ext, (main_loop K rfd envp argv w).world.calls = w.calls ++ ext ∧
      LoopRun ext (main_loop K rfd envp argv w).outcome := by
  refine main_loop_induction K rfd envp
    (fun _ w R => ∃ ext, R.world.calls = w.calls ++ ext ∧ LoopRun ext R.outcome)
    ?_ ?_ ?_ ?_ argv w
  · intro argv w
    obtain ⟨t, h1, h2⟩ := main_rest_run K rfd envp argv w
    exact ⟨t, h1, LoopRun.tail t _ h2⟩
  · intro a argv w d _
    exact ⟨[], by simp, LoopRun.tail _ _ TailRun.stopped⟩
  · intro a pre path rest w acc _ hr
    obtain ⟨rc, hc⟩ := populate_ruleset_calls K w rfd path acc
    rw [populate_ruleset_fst] at hr
    have hne : (attachReply K w rfd path acc).ret ≠ 0 := by
      intro h0; simp [h0] at hr
    exact ⟨_, by simpa [World.perror] using hc, LoopRun.rejected _ _ _ _ _ _ _ hne⟩
  · intro a pre path rest w acc R _ hr ih
    obtain ⟨rc, hc⟩ := populate_ruleset_calls K w rfd path acc
    rw [populate_ruleset_fst] at hr
    have h0 : (attachReply K w rfd path acc).ret = 0 := by
      by_contra h0; simp [h0] at hr
    obtain ⟨ext, he, hl⟩ := ih
    refine ⟨_, ?_, LoopRun.attached path (K.sys w.calls (Call.open_path path)) rfd
      (K.sys w.calls (Call.open_path path)).ret acc _ rc ext _ h0 hl⟩
    rw [he, hc]; simp

theorem main_run (K : Kernel) (argv : List String) (envp : List String) :
    MainRun (main K argv envp).world.calls (main K argv envp).outcome := by
  unfold main
  by_cases hh : argv.tail.head? = some "-h"
  · have hcalls : ∀ (l : List String) (w : World), (l.foldl World.puts w).calls = w.calls := by
      intro l
      induction l with
      | nil => intro w; rfl
      | cons x l ih => intro w; simp [List.foldl, ih, World.puts]
    simp only [hh, if_true, hcalls]
    exact MainRun.help
  simp only [hh, if_false, World.syscall, World.init, List.nil_append]
  generalize K.sys [] (Call.landlock_create_ruleset
    (ACCESS_FS_ROUGHLY_READ ||| ACCESS_FS_ROUGHLY_WRITE)) = r
  by_cases hr : r.ret < 0
  · simp only [hr, if_true]
    split_ifs <;> exact MainRun.create_failed _ r hr
  · simp only [hr, if_false]
    obtain ⟨ext, he, hl⟩ := main_loop_run K r.ret envp argv.tail
      ⟨[Event.sys (Call.landlock_create_ruleset
        (ACCESS_FS_ROUGHLY_READ ||| ACCESS_FS_ROUGHLY_WRITE)) r], 0, [], []⟩
    rw [he]
    exact MainRun.created _ r ext _ (by omega) hl

/-! ## Ordering of privilege drop, policy bind and launch -/

theorem split_cons {α : Type} {pre post l : List α} {e x : α}
    (h : x :: l = pre ++ e :: post) :
    (pre = [] ∧ x = e ∧ l = post) ∨ ∃ pre1, pre = x :: pre1 ∧ l = pre1 ++ e :: post := by
  cases pre with
  | nil => left; simpa using h
  | cons y pre1 =>
    right
    simp only [List.cons_append, List.cons.injEq] at h
    exact ⟨pre1, by rw [h.1], h.2⟩

theorem restrictAfterPrctl_nil : RestrictAfterPrctl [] := by
  intro pre e post h; simp at h

theorem restrictAfterPrctl_cons {x : Event} {l : List Event}
    (h : (x.isPrctl = true ∧ x.succeeded = true) ∨
      (x.isRestrictSelf = false ∧ RestrictAfterPrctl l)) :
    RestrictAfterPrctl (x :: l) := by
  intro pre e post heq he
  rcases split_cons heq with ⟨_, hx, _⟩ | ⟨pre1, hp, hl⟩
  · subst hx
    rcases h with ⟨h1, _⟩ | ⟨h1, _⟩
    · cases x with
      | sys c r => cases c <;> simp_all [Event.isPrctl, Event.isRestrictSelf]
      | execvpe _ _ _ _ => simp_all [Event.isPrctl]
    · simp_all
  · subst hp
    rcases h with h1 | ⟨_, h2⟩
    · exact ⟨x, by simp, h1⟩
    · obtain ⟨p, hp, hq⟩ := h2 pre1 e post hl he
      exact ⟨p, by simp [hp], hq⟩

theorem execAfterRestrict_nil : ExecAfterRestrict [] := by
  intro pre e post h; simp at h

theorem execAfterRestrict_cons {x : Event} {l : List Event}
    (h : (x.isRestrictSelf = true ∧ x.succeeded = true) ∨
      (x.isExecvpe = false ∧ ExecAfterRestrict l)) :
    ExecAfterRestrict (x :: l) := by
  intro pre e post heq he
  rcases split_cons heq with ⟨_, hx, _⟩ | ⟨pre1, hp, hl⟩
  · subst hx
    rcases h with ⟨h1, _⟩ | ⟨h1, _⟩
    · cases x with
      | sys c r => simp_all [Event.isExecvpe]
      | execvpe _ _ _ _ => simp_all [Event.isRestrictSelf]
    · simp_all
  · subst hp
    rcases h with h1 | ⟨_, h2⟩
    · exact ⟨x, by simp, h1⟩
    · obtain ⟨p, hp, hq⟩ := h2 pre1 e post hl he
      exact ⟨p, by simp [hp], hq⟩

theorem failureIsFinal_nil (out : Outcome) : FailureIsFinal [] out := by
  intro pre e post h; simp at h

theorem failureIsFinal_single (x : Event) : FailureIsFinal [x] (Outcome.returned 1) := by
  intro pre e post heq _ _
  rcases split_cons heq with ⟨_, _, hl⟩ | ⟨pre1, _, hl⟩
  · exact ⟨hl.symm, rfl⟩
  · simp at hl

theorem failureIsFinal_cons {x : Event} {l : List Event} {out : Outcome}
    (hx : x.succeeded = true ∨ (x.isPrctl = false ∧ x.isRestrictSelf = false))
    (h : FailureIsFinal l out) : FailureIsFinal (x :: l) out := by
  intro pre e post heq he hf
  rcases split_cons heq with ⟨_, hxe, _⟩ | ⟨pre1, _, hl⟩
  · subst hxe
    rcases hx with hx | ⟨h1, h2⟩
    · simp [hx] at hf
    · simp [h1, h2] at he
  · exact h pre1 e post hl he hf

theorem tailRun_ordering {t : List Event} {out : Outcome} (h : TailRun t out) :
    RestrictAfterPrctl t ∧ ExecAfterRestrict t ∧ FailureIsFinal t out := by
  cases h with
  | stopped =>
    exact ⟨restrictAfterPrctl_nil, execAfterRestrict_nil, failureIsFinal_nil _⟩
  | prctl_failed r hr =>
    refine ⟨restrictAfterPrctl_cons (Or.inr ⟨rfl, restrictAfterPrctl_nil⟩),
      execAfterRestrict_cons (Or.inr ⟨rfl, execAfterRestrict_nil⟩), failureIsFinal_single _⟩
  | restrict_failed r1 r2 fd h1 h2 =>
    refine ⟨restrictAfterPrctl_cons (Or.inl ⟨rfl, by simp [Event.succeeded, h1]⟩),
      execAfterRestrict_cons (Or.inr ⟨rfl,
        execAfterRestrict_cons (Or.inr ⟨rfl, execAfterRestrict_nil⟩)⟩),
      failureIsFinal_cons (Or.inl (by simp [Event.succeeded, h1])) (failureIsFinal_single _)⟩
  | exec_failed r1 r2 r3 fd file argv envp e h1 h2 =>
    refine ⟨restrictAfterPrctl_cons (Or.inl ⟨rfl, by simp [Event.succeeded, h1]⟩),
      execAfterRestrict_cons (Or.inr ⟨rfl,
        execAfterRestrict_cons (Or.inl ⟨rfl, by simp [Event.succeeded, h2]⟩)⟩),
      failureIsFinal_cons (Or.inl (by simp [Event.succeeded, h1]))
        (failureIsFinal_cons (Or.inl (by simp [Event.succeeded, h2]))
          (failureIsFinal_cons (Or.inr ⟨rfl, rfl⟩) (failureIsFinal_single _)))⟩
  | exec_done r1 r2 r3 fd file argv envp h1 h2 =>
    refine ⟨restrictAfterPrctl_cons (Or.inl ⟨rfl, by simp [Event.succeeded, h1]⟩),
      execAfterRestrict_cons (Or.inr ⟨rfl,
        execAfterRestrict_cons (Or.inl ⟨rfl, by simp [Event.succeeded, h2]⟩)⟩),
      failureIsFinal_cons (Or.inl (by simp [Event.succeeded, h1]))
        (failureIsFinal_cons (Or.inl (by simp [Event.succeeded, h2]))
          (failureIsFinal_cons (Or.inr ⟨rfl, rfl⟩)
            (failureIsFinal_cons (Or.inr ⟨rfl, rfl⟩) (failureIsFinal_nil _))))⟩

theorem loopRun_ordering {t : List Event} {out : Outcome} (h : LoopRun t out) :
    RestrictAfterPrctl t ∧ ExecAfterRestrict t ∧ FailureIsFinal t out := by
  induction h with
  | tail t out ht => exact tailRun_ordering ht
  | rejected p ro rfd fd acc ra rc hra =>
    refine ⟨restrictAfterPrctl_cons (Or.inr ⟨rfl, restrictAfterPrctl_cons (Or.inr ⟨rfl,
        restrictAfterPrctl_cons (Or.inr ⟨rfl, restrictAfterPrctl_nil⟩)⟩)⟩),
      execAfterRestrict_cons (Or.inr ⟨rfl, execAfterRestrict_cons (Or.inr ⟨rfl,
        execAfterRestrict_cons (Or.inr ⟨rfl, execAfterRestrict_nil⟩)⟩)⟩),
      failureIsFinal_cons (Or.inr ⟨rfl, rfl⟩) (failureIsFinal_cons (Or.inr ⟨rfl, rfl⟩)
        (failureIsFinal_single _))⟩
  | attached p ro rfd fd acc ra rc rest out hra _ ih =>
    refine ⟨restrictAfterPrctl_cons (Or.inr ⟨rfl, restrictAfterPrctl_cons (Or.inr ⟨rfl,
        restrictAfterPrctl_cons (Or.inr ⟨rfl, ih.1⟩)⟩)⟩),
      execAfterRestrict_cons (Or.inr ⟨rfl, execAfterRestrict_cons (Or.inr ⟨rfl,
        execAfterRestrict_cons (Or.inr ⟨rfl, ih.2.1⟩)⟩)⟩),
      failureIsFinal_cons (Or.inr ⟨rfl, rfl⟩) (failureIsFinal_cons (Or.inr ⟨rfl, rfl⟩)
        (failureIsFinal_cons (Or.inr ⟨rfl, rfl⟩) ih.2.2))⟩

theorem mainRun_ordering {t : List Event} {out : Outcome} (h : MainRun t out) :
    RestrictAfterPrctl t ∧ ExecAfterRestrict t ∧ FailureIsFinal t out := by
  cases h with
  | help => exact ⟨restrictAfterPrctl_nil, execAfterRestrict_nil, failureIsFinal_nil _⟩
  | create_failed h r hr =>
    exact ⟨restrictAfterPrctl_cons (Or.inr ⟨rfl, restrictAfterPrctl_nil⟩),
      execAfterRestrict_cons (Or.inr ⟨rfl, execAfterRestrict_nil⟩), failureIsFinal_single _⟩
  | created h r ext out hr hl =>
    have ih := loopRun_ordering hl
    exact ⟨restrictAfterPrctl_cons (Or.inr ⟨rfl, ih.1⟩),
      execAfterRestrict_cons (Or.inr ⟨rfl, ih.2.1⟩),
      failureIsFinal_cons (Or.inr ⟨rfl, rfl⟩) ih.2.2⟩

/-- C1: in the kernel-call trace of `main`, for every argument vector and every
kernel behaviour, every `landlock_restrict_self` call comes after a
`prctl(PR_SET_NO_NEW_PRIVS)` call that returned success, every `execvpe` call
comes after a `landlock_restrict_self` call that returned success, and a
failed `prctl` or `landlock_restrict_self` call is the last kernel call of the
run, after which `main` returns 1. -/
theorem main_restriction_order (K : Kernel) (prog : String) (args : List String)
    (envp : List String) :
    RestrictAfterPrctl (main K (prog :: args) envp).world.calls ∧
    ExecAfterRestrict (main K (prog :: args) envp).world.calls ∧
    FailureIsFinal (main K (prog :: args) envp).world.calls
      (main K (prog :: args) envp).outcome :=
  mainRun_ordering (main_run K (prog :: args) envp)

/-- Witness for C1: on a kernel whose `prctl` fails the failed call ends the
trace and `main` returns 1; on a kernel where everything succeeds the
`landlock_restrict_self` call has the successful `prctl` before it. -/
theorem main_restriction_order_witness :
    (([] : List Event) = [] ∧
      (main kernelPrctlFails ["lljail", "-r", "/usr", "--", "/bin/true"] []).outcome
        = Outcome.returned 1) ∧
    ∃ p ∈ [Event.sys (Call.landlock_create_ruleset 8191) ⟨3, 0⟩,
        Event.sys Call.prctl_no_new_privs ⟨0, 0⟩],
      p.isPrctl = true ∧ p.succeeded = true :=
  ⟨(main_restriction_order kernelPrctlFails "lljail" ["-r", "/usr", "--", "/bin/true"] []).2.2
      [Event.sys (Call.landlock_create_ruleset 8191) ⟨3, 0⟩,
        Event.sys (Call.open_path "/usr") ⟨4, 0⟩,
        Event.sys (Call.landlock_add_rule 3 4 13) ⟨0, 0⟩,
        Event.sys (Call.close 4) ⟨0, 0⟩]
      (Event.sys Call.prctl_no_new_privs ⟨-1, 22⟩) [] (by decide) (Or.inl rfl) (by decide),
   (main_restriction_order kernelOk "lljail" ["--", "/bin/true"] []).1
      [Event.sys (Call.landlock_create_ruleset 8191) ⟨3, 0⟩,
        Event.sys Call.prctl_no_new_privs ⟨0, 0⟩]
      (Event.sys (Call.landlock_restrict_self 3) ⟨0, 0⟩)
      [Event.sys (Call.close 3) ⟨0, 0⟩,
        Event.execvpe (some "/bin/true") ["/bin/true"] [] none] (by decide) rfl⟩

/-! ## A rejected rule ends the run -/

theorem rejectionIsFinal_of_no_attach {t : List Event} {out : Outcome}
    (h : ∀ x ∈ t, x.isAddRule = false) : RejectionIsFinal t out := by
  intro pre rfd fd acc ra post heq _
  have hm : Event.sys (Call.landlock_add_rule rfd fd acc) ra ∈ t := by
    rw [heq]; simp
  have := h _ hm
  simp [Event.isAddRule] at this

theorem tailRun_no_attach {t : List Event} {out : Outcome} (h : TailRun t out) :
    ∀ x ∈ t, x.isAddRule = false := by
  cases h <;> simp [Event.isAddRule]

theorem rejectionIsFinal_cons {x : Event} {l : List Event} {out : Outcome}
    (hx : x.isPrctl = false ∧ x.isRestrictSelf = false ∧ x.isExecvpe = false)
    (ha : x.isAddRule = false ∨ x.succeeded = true)
    (h : RejectionIsFinal l out) : RejectionIsFinal (x :: l) out := by
  intro pre rfd fd acc ra post heq hra
  rcases split_cons heq with ⟨_, hxe, _⟩ | ⟨pre1, _, hl⟩
  · subst hxe
    rcases ha with ha | ha
    · simp [Event.isAddRule] at ha
    · simp [Event.succeeded, hra] at ha
  · obtain ⟨h1, h2, h3⟩ := h pre1 rfd fd acc ra post hl hra
    refine ⟨h1, h2, ?_⟩
    intro y hy
    rcases List.mem_cons.mp hy with rfl | hy
    · exact hx
    · exact h3 y hy

theorem loopRun_rejection {t : List Event} {out : Outcome} (h : LoopRun t out) :
    RejectionIsFinal t out := by
  induction h with
  | tail t out ht => exact rejectionIsFinal_of_no_attach (tailRun_no_attach ht)
  | rejected p ro rfd fd acc ra rc hra =>
    intro pre rfd1 fd1 acc1 ra1 post heq hra1
    rcases split_cons heq with ⟨_, hxe, _⟩ | ⟨pre1, _, hl⟩
    · simp at hxe
    rcases split_cons hl with ⟨_, hxe, hp⟩ | ⟨pre2, _, hl⟩
    · simp only [Event.sys.injEq, Call.landlock_add_rule.injEq] at hxe
      obtain ⟨⟨_, hfd, _⟩, _⟩ := hxe
      subst hfd
      refine ⟨rfl, ⟨rc, hp.symm⟩, ?_⟩
      intro x hx
      simp only [List.mem_cons, List.mem_singleton, List.not_mem_nil, or_false] at hx
      rcases hx with rfl | rfl | rfl <;> exact ⟨rfl, rfl, rfl⟩
    rcases split_cons hl with ⟨_, hxe, _⟩ | ⟨pre3, _, hl⟩
    · simp at hxe
    · simp at hl
  | attached p ro rfd fd acc ra rc rest out hra _ ih =>
    exact rejectionIsFinal_cons ⟨rfl, rfl, rfl⟩ (Or.inl rfl)
      (rejectionIsFinal_cons ⟨rfl, rfl, rfl⟩ (Or.inr (by simp [Event.succeeded, hra]))
        (rejectionIsFinal_cons ⟨rfl, rfl, rfl⟩ (Or.inl rfl) ih))

theorem mainRun_rejection {t : List Event} {out : Outcome} (h : MainRun t out) :
    RejectionIsFinal t out := by
  cases h with
  | help => exact rejectionIsFinal_of_no_attach (by simp)
  | create_failed h r hr => exact rejectionIsFinal_of_no_attach (by simp [Event.isAddRule])
  | created h r ext out hr hl =>
    exact rejectionIsFinal_cons ⟨rfl, rfl, rfl⟩ (Or.inl rfl) (loopRun_rejection hl)

/-- C2: for every argument vector and every kernel behaviour, if an attach call
(`landlock_add_rule`) of the run is rejected, then `main` returns 1, the only
kernel call after the rejected one closes the path descriptor of that
directive (so no later directive is opened or attached), and the run contains
no `prctl`, `landlock_restrict_self` or `execvpe` call. -/
theorem main_stops_at_rejected_rule (K : Kernel) (prog : String) (args : List String)
    (envp : List String) (pre : List Event) (rfd fd : Int) (acc : Nat) (ra : Reply)
    (post : List Event)
    (h : (main K (prog :: args) envp).world.calls
      = pre ++ Event.sys (Call.landlock_add_rule rfd fd acc) ra :: post)
    (hra : ra.ret ≠ 0) :
    (main K (prog :: args) envp).outcome = Outcome.returned 1 ∧
    (∃ rc, post = [Event.sys (Call.close fd) rc]) ∧
    ∀ x ∈ (main K (prog :: args) envp).world.calls,
      x.isPrctl = false ∧ x.isRestrictSelf = false ∧ x.isExecvpe = false :=
  mainRun_rejection (main_run K (prog :: args) envp) pre rfd fd acc ra post h hra

/-- Witness for C2: on a kernel that rejects the attach call, the run of
`lljail -r /a -r /b -- /bin/true` stops at the first directive. -/
theorem main_stops_at_rejected_rule_witness :
    (main kernelRejectAttach ["lljail", "-r", "/a", "-r", "/b", "--", "/bin/true"] []).outcome
      = Outcome.returned 1 ∧
    (∃ rc, [Event.sys (Call.close (-1)) ⟨0, 0⟩] = [Event.sys (Call.close (-1)) rc]) ∧
    ∀ x ∈ (main kernelRejectAttach
        ["lljail", "-r", "/a", "-r", "/b", "--", "/bin/true"] []).world.calls,
      x.isPrctl = false ∧ x.isRestrictSelf = false ∧ x.isExecvpe = false :=
  main_stops_at_rejected_rule kernelRejectAttach "lljail"
    ["-r", "/a", "-r", "/b", "--", "/bin/true"] []
    [Event.sys (Call.landlock_create_ruleset 8191) ⟨3, 0⟩,
      Event.sys (Call.open_path "/a") ⟨-1, 2⟩]
    3 (-1) 13 ⟨-1, 9⟩ [Event.sys (Call.close (-1)) ⟨0, 0⟩] (by decide) (by decide)

/-! ## Command lines without the separator -/

theorem main_rest_without_separator (K : Kernel) (rfd : Int) (envp : List String)
    (argv : List String) (w : World) (h : "--" ∉ argv) :
    (main_rest K rfd envp argv w).outcome = Outcome.returned 1 ∧
    (main_rest K rfd envp argv w).world.calls = w.calls := by
  unfold main_rest
  rcases argv with _ | ⟨a, argv⟩
  · simp [World.fprintf]
  · have ha : a ≠ "--" := fun h0 => h (by simp [h0])
    simp [ha, World.fprintf]

theorem main_loop_without_separator (K : Kernel) (rfd : Int) (envp : List String)
    (argv : List String) (w : World) (h : "--" ∉ argv)
    (hw : ∀ x ∈ w.calls, x.isPrctl = false ∧ x.isRestrictSelf = false ∧ x.isExecvpe = false) :
    (main_loop K rfd envp argv w).outcome = Outcome.returned 1 ∧
    ∀ x ∈ (main_loop K rfd envp argv w).world.calls,
      x.isPrctl = false ∧ x.isRestrictSelf = false ∧ x.isExecvpe = false := by
  have hpop : ∀ (w : World) (path : String) (acc : Nat),
      (∀ x ∈ w.calls, x.isPrctl = false ∧ x.isRestrictSelf = false ∧ x.isExecvpe = false) →
      ∀ x ∈ (populate_ruleset K w rfd path acc).2.calls,
        x.isPrctl = false ∧ x.isRestrictSelf = false ∧ x.isExecvpe = false := by
    intro w path acc hw x hx
    obtain ⟨rc, hc⟩ := populate_ruleset_calls K w rfd path acc
    rw [hc] at hx
    simp only [List.mem_append, List.mem_cons, List.mem_singleton, List.not_mem_nil,
      or_false] at hx
    rcases hx with hx | rfl | rfl | rfl
    · exact hw x hx
    all_goals exact ⟨rfl, rfl, rfl⟩
  refine main_loop_induction K rfd envp
    (fun argv w R => "--" ∉ argv →
      (∀ x ∈ w.calls, x.isPrctl = false ∧ x.isRestrictSelf = false ∧ x.isExecvpe = false) →
      R.outcome = Outcome.returned 1 ∧
      ∀ x ∈ R.world.calls,
        x.isPrctl = false ∧ x.isRestrictSelf = false ∧ x.isExecvpe = false)
    ?_ ?_ ?_ ?_ argv w h hw
  · intro argv w h hw
    obtain ⟨h1, h2⟩ := main_rest_without_separator K rfd envp argv w h
    exact ⟨h1, by rw [h2]; exact hw⟩
  · intro a argv w d _ _ hw
    exact ⟨rfl, hw⟩
  · intro a pre path rest w acc _ _ _ hw
    exact ⟨rfl, hpop w path acc hw⟩
  · intro a pre path rest w acc R _ _ ih h hw
    refine ih ?_ (hpop w path acc hw)
    intro hmem
    exact h (by simp [hmem])

/-- C8: for every argument vector that contains no `--` token and whose first
argument is not `-h`, and for every kernel behaviour, `main` returns 1 and the
run contains no `prctl`, `landlock_restrict_self` or `execvpe` call. -/
theorem main_without_separator (K : Kernel) (prog : String) (args : List String)
    (envp : List String) (hh : args.head? ≠ some "-h") (hsep : "--" ∉ args) :
    (main K (prog :: args) envp).outcome = Outcome.returned 1 ∧
    ∀ x ∈ (main K (prog :: args) envp).world.calls,
      x.isPrctl = false ∧ x.isRestrictSelf = false ∧ x.isExecvpe = false := by
  unfold main
  simp only [List.tail_cons, hh, if_false, World.syscall, World.init, List.nil_append]
  generalize K.sys [] (Call.landlock_create_ruleset
    (ACCESS_FS_ROUGHLY_READ ||| ACCESS_FS_ROUGHLY_WRITE)) = r
  by_cases hr : r.ret < 0
  · simp only [hr, if_true, true_and]
    intro x hx
    have hx1 : x = Event.sys (Call.landlock_create_ruleset
        (ACCESS_FS_ROUGHLY_READ ||| ACCESS_FS_ROUGHLY_WRITE)) r := by
      split_ifs at hx <;> simpa [World.perror] using hx
    subst hx1
    exact ⟨rfl, rfl, rfl⟩
  · simp only [hr, if_false]
    apply main_loop_without_separator K r.ret envp args _ hsep
    intro x hx
    simp only [List.mem_singleton] at hx
    subst hx
    exact ⟨rfl, rfl, rfl⟩

/-- Witness for C8: `lljail -r /usr /bin/true` has no separator. -/
theorem main_without_separator_witness :
    (main kernelOk ["lljail", "-r", "/usr", "/bin/true"] []).outcome = Outcome.returned 1 ∧
    ∀ x ∈ (main kernelOk ["lljail", "-r", "/usr", "/bin/true"] []).world.calls,
      x.isPrctl = false ∧ x.isRestrictSelf = false ∧ x.isExecvpe = false :=
  main_without_separator kernelOk "lljail" ["-r", "/usr", "/bin/true"] []
    (by decide) (by decide)

/-! ## Failure to create the ruleset -/

/-- C7: for every argument vector whose first argument is not `-h`, if
`landlock_create_ruleset` fails then the creation call is the only kernel call
of the run, `main` returns 1, and the one diagnostic printed is chosen by
`errno` among exactly three: `ENOSYS` gives "not supported", `EOPNOTSUPP`
gives "not enabled", every other value gives "Unknown error". -/
theorem main_create_failure (K : Kernel) (prog : String) (args : List String)
    (envp : List String) (hh : args.head? ≠ some "-h")
    (hr : (K.sys [] (Call.landlock_create_ruleset
      (ACCESS_FS_ROUGHLY_READ ||| ACCESS_FS_ROUGHLY_WRITE))).ret < 0) :
    main K (prog :: args) envp =
      ⟨⟨[Event.sys (Call.landlock_create_ruleset
            (ACCESS_FS_ROUGHLY_READ ||| ACCESS_FS_ROUGHLY_WRITE))
            (K.sys [] (Call.landlock_create_ruleset
              (ACCESS_FS_ROUGHLY_READ ||| ACCESS_FS_ROUGHLY_WRITE)))],
         (K.sys [] (Call.landlock_create_ruleset
            (ACCESS_FS_ROUGHLY_READ ||| ACCESS_FS_ROUGHLY_WRITE))).errno,
         [],
         [Diag.perror
            (if (K.sys [] (Call.landlock_create_ruleset
                (ACCESS_FS_ROUGHLY_READ ||| ACCESS_FS_ROUGHLY_WRITE))).errno = ENOSYS then
              "Landlock is not supported by your kernel"
            else if (K.sys [] (Call.landlock_create_ruleset
                (ACCESS_FS_ROUGHLY_READ ||| ACCESS_FS_ROUGHLY_WRITE))).errno = EOPNOTSUPP then
              "Landlock is not enabled in your kernel"
            else "Unknown error")
            (K.sys [] (Call.landlock_create_ruleset
              (ACCESS_FS_ROUGHLY_READ ||| ACCESS_FS_ROUGHLY_WRITE))).errno]⟩,
       Outcome.returned 1⟩ := by
  unfold main
  simp only [List.tail_cons, hh, if_false, World.syscall, World.init, List.nil_append, hr,
    if_true]
  split_ifs <;> simp [World.perror]

/-- Witness for C7: a kernel without Landlock, with two directives on the
command line. -/
theorem main_create_failure_witness :
    main kernelNoLandlock ["lljail", "-r", "/usr", "-w", "/tmp", "--", "/bin/true"] ["A=1"] =
      ⟨⟨[Event.sys (Call.landlock_create_ruleset
            (ACCESS_FS_ROUGHLY_READ ||| ACCESS_FS_ROUGHLY_WRITE))
            (kernelNoLandlock.sys [] (Call.landlock_create_ruleset
              (ACCESS_FS_ROUGHLY_READ ||| ACCESS_FS_ROUGHLY_WRITE)))],
         (kernelNoLandlock.sys [] (Call.landlock_create_ruleset
            (ACCESS_FS_ROUGHLY_READ ||| ACCESS_FS_ROUGHLY_WRITE))).errno,
         [],
         [Diag.perror
            (if (kernelNoLandlock.sys [] (Call.landlock_create_ruleset
                (ACCESS_FS_ROUGHLY_READ ||| ACCESS_FS_ROUGHLY_WRITE))).errno = ENOSYS then
              "Landlock is not supported by your kernel"
            else if (kernelNoLandlock.sys [] (Call.landlock_create_ruleset
                (ACCESS_FS_ROUGHLY_READ ||| ACCESS_FS_ROUGHLY_WRITE))).errno = EOPNOTSUPP then
              "Landlock is not enabled in your kernel"
            else "Unknown error")
            (kernelNoLandlock.sys [] (Call.landlock_create_ruleset
              (ACCESS_FS_ROUGHLY_READ ||| ACCESS_FS_ROUGHLY_WRITE))).errno]⟩,
       Outcome.returned 1⟩ :=
  main_create_failure kernelNoLandlock "lljail" ["-r", "/usr", "-w", "/tmp", "--", "/bin/true"]
    ["A=1"] (by decide) (by decide)

/-! ## Access masks -/

theorem loopRun_no_create {t : List Event} {out : Outcome} (h : LoopRun t out) :
    ∀ x ∈ t, x.isCreate = false := by
  induction h with
  | tail t out ht => cases ht <;> simp [Event.isCreate]
  | rejected p ro rfd fd acc ra rc hra => simp [Event.isCreate]
  | attached p ro rfd fd acc ra rc rest out hra _ ih =>
    intro x hx
    simp only [List.mem_cons] at hx
    rcases hx with rfl | rfl | rfl | hx
    · rfl
    · rfl
    · rfl
    · exact ih x hx

/-- C3: the access mask `main` passes to `populate_ruleset` for a directive is
`effective(class, fileOnly)`: with the `file` modifier after the flag the loop
iteration attaches the path with `effective c true`, without it with
`effective c false`.  Moreover `effective Read true` is execute and read-file,
`effective Write true` is write-file, `effective ReadWrite false` is
roughly-read united with roughly-write, and for every class the file-only mask
is a subset of the unrestricted one. -/
theorem main_access_is_effective (K : Kernel) (rfd : Int) (envp : List String)
    (c : AccessClass) (w : World) :
    (∀ (q : String) (rest : List String),
      main_loop K rfd envp (c.flag :: "file" :: q :: rest) w
        = if (populate_ruleset K w rfd q (effective c true)).1 ≠ 0 then
            ⟨(populate_ruleset K w rfd q (effective c true)).2.perror
              "Could not populate ruleset", Outcome.returned 1⟩
          else main_loop K rfd envp rest (populate_ruleset K w rfd q (effective c true)).2) ∧
    (∀ (p : String) (rest : List String), p ≠ "file" →
      main_loop K rfd envp (c.flag :: p :: rest) w
        = if (populate_ruleset K w rfd p (effective c false)).1 ≠ 0 then
            ⟨(populate_ruleset K w rfd p (effective c false)).2.perror
              "Could not populate ruleset", Outcome.returned 1⟩
          else main_loop K rfd envp rest (populate_ruleset K w rfd p (effective c false)).2) ∧
    effective AccessClass.Read true
      = LANDLOCK_ACCESS_FS_EXECUTE ||| LANDLOCK_ACCESS_FS_READ_FILE ∧
    effective AccessClass.Write true = LANDLOCK_ACCESS_FS_WRITE_FILE ∧
    effective AccessClass.ReadWrite false
      = ACCESS_FS_ROUGHLY_READ ||| ACCESS_FS_ROUGHLY_WRITE ∧
    effective c true &&& effective c false = effective c true := by
  refine ⟨fun q rest => main_loop_flag_file K rfd envp c q rest w,
    fun p rest hp => main_loop_flag_path K rfd envp c p rest w hp,
    by decide, by decide, by decide, ?_⟩
  cases c <;> decide

/-- Witness for C3: the directive `-w /tmp` is attached with the roughly-write
mask, on a run where the program goes on to the next iteration. -/
theorem main_access_is_effective_witness :
    main_loop kernelOk 3 [] ["-w", "/tmp", "--", "/bin/true"] World.init
      = main_loop kernelOk 3 [] ["--", "/bin/true"]
          (populate_ruleset kernelOk World.init 3 "/tmp" ACCESS_FS_ROUGHLY_WRITE).2 :=
  ((main_access_is_effective kernelOk 3 [] AccessClass.Write World.init).2.1
    "/tmp" ["--", "/bin/true"] (by decide)).trans (by decide)

/-- Counterexample to C9 as stated: the handled access set of the creation call
does not have 11 bits set. -/
theorem handled_access_not_eleven_bits :
    (main kernelOk ["lljail", "--", "/bin/true"] []).world.calls.head?
      = some (Event.sys (Call.landlock_create_ruleset
          (ACCESS_FS_ROUGHLY_READ ||| ACCESS_FS_ROUGHLY_WRITE)) ⟨3, 0⟩) ∧
    ¬ bitCount (ACCESS_FS_ROUGHLY_READ ||| ACCESS_FS_ROUGHLY_WRITE) = 11 := by
  decide

/-- C9, amended: for every argument vector whose first argument is not `-h`,
the first kernel call of `main` creates the ruleset with the handled access set
roughly-read united with roughly-write, no later call creates a ruleset, that
set equals `effective ReadWrite false`, and it has exactly 13 bits set (3
roughly-read rights and 10 roughly-write rights). -/
theorem main_handled_access (K : Kernel) (prog : String) (args : List String)
    (envp : List String) (hh : args.head? ≠ some "-h") :
    (∃ r ext, (main K (prog :: args) envp).world.calls
        = Event.sys (Call.landlock_create_ruleset
            (ACCESS_FS_ROUGHLY_READ ||| ACCESS_FS_ROUGHLY_WRITE)) r :: ext ∧
      ∀ x ∈ ext, x.isCreate = false) ∧
    ACCESS_FS_ROUGHLY_READ ||| ACCESS_FS_ROUGHLY_WRITE
      = effective AccessClass.ReadWrite false ∧
    bitCount (ACCESS_FS_ROUGHLY_READ ||| ACCESS_FS_ROUGHLY_WRITE) = 13 := by
  refine ⟨?_, by decide, by decide⟩
  unfold main
  simp only [List.tail_cons, hh, if_false, World.syscall, World.init, List.nil_append]
  generalize K.sys [] (Call.landlock_create_ruleset
    (ACCESS_FS_ROUGHLY_READ ||| ACCESS_FS_ROUGHLY_WRITE)) = r
  by_cases hr : r.ret < 0
  · simp only [hr, if_true]
    refine ⟨r, [], ?_, by simp⟩
    split_ifs <;> simp [World.perror]
  · simp only [hr, if_false]
    obtain ⟨ext, he, hl⟩ := main_loop_run K r.ret envp args
      ⟨[Event.sys (Call.landlock_create_ruleset
        (ACCESS_FS_ROUGHLY_READ ||| ACCESS_FS_ROUGHLY_WRITE)) r], 0, [], []⟩
    exact ⟨r, ext, by rw [he]; rfl, loopRun_no_create hl⟩

/-- Witness for C9, amended. -/
theorem main_handled_access_witness :
    (∃ r ext, (main kernelOk ["lljail", "-r", "/usr", "--", "/bin/true"] []).world.calls
        = Event.sys (Call.landlock_create_ruleset
            (ACCESS_FS_ROUGHLY_READ ||| ACCESS_FS_ROUGHLY_WRITE)) r :: ext ∧
      ∀ x ∈ ext, x.isCreate = false) ∧
    ACCESS_FS_ROUGHLY_READ ||| ACCESS_FS_ROUGHLY_WRITE
      = effective AccessClass.ReadWrite false ∧
    bitCount (ACCESS_FS_ROUGHLY_READ ||| ACCESS_FS_ROUGHLY_WRITE) = 13 :=
  main_handled_access kernelOk "lljail" ["-r", "/usr", "--", "/bin/true"] [] (by decide)

/-! ## Path descriptors -/

theorem openFds_append (fds : Finset Int) (l1 l2 : List Event) :
    openFds fds (l1 ++ l2) = openFds (openFds fds l1) l2 := by
  simp [openFds, List.foldl_append]

/-- C10: over the open-descriptor set read off the trace, `populate_ruleset`
leaves the set as it found it, whatever the outcome of `open` and of the attach
call, provided the kernel hands out descriptors as it does: no negative number
is an open descriptor, and a successful `open` returns a descriptor that was
not open. -/
theorem populate_ruleset_keeps_descriptors (K : Kernel) (w : World) (rfd : Int)
    (path : String) (acc : Nat) (fds : Finset Int)
    (hfds : ∀ x ∈ openFds fds w.calls, 0 ≤ x)
    (hfresh : 0 ≤ (K.sys w.calls (Call.open_path path)).ret →
      (K.sys w.calls (Call.open_path path)).ret ∉ openFds fds w.calls) :
    openFds fds (populate_ruleset K w rfd path acc).2.calls = openFds fds w.calls := by
  obtain ⟨rc, hc⟩ := populate_ruleset_calls K w rfd path acc
  rw [hc, openFds_append]
  generalize openFds fds w.calls = S at hfds hfresh
  generalize K.sys w.calls (Call.open_path path) = ro at hfresh
  simp only [openFds, List.foldl, fdStep]
  by_cases h0 : 0 ≤ ro.ret
  · simp only [h0, if_true]
    exact Finset.erase_insert (hfresh h0)
  · simp only [h0, if_false]
    apply Finset.erase_eq_of_not_mem
    intro hmem
    exact h0 (hfds _ hmem)

/-- Witness for C10: the first path of a run, right after the ruleset was
created as descriptor 3, with the standard descriptors open at program start. -/
theorem populate_ruleset_keeps_descriptors_witness :
    openFds {0, 1, 2}
        (populate_ruleset kernelOk
          (World.init.syscall kernelOk (Call.landlock_create_ruleset 8191)).2
          3 "/usr" 13).2.calls
      = openFds {0, 1, 2}
          (World.init.syscall kernelOk (Call.landlock_create_ruleset 8191)).2.calls :=
  populate_ruleset_keeps_descriptors kernelOk
    (World.init.syscall kernelOk (Call.landlock_create_ruleset 8191)).2 3 "/usr" 13 {0, 1, 2}
    (by decide) (by decide)

/-! ## Unresolvable paths -/

/-- Counterexample to C6 as stated: on a kernel whose `open` fails and whose
attach call answers success, `populate_ruleset` returns 0 although the path did
not resolve, and `main` goes on to launch the command. -/
theorem populate_ruleset_no_eager_check :
    (kernelLenientAttach.sys [] (Call.open_path "/nonexistent")).ret < 0 ∧
    (populate_ruleset kernelLenientAttach World.init 3 "/nonexistent"
      ACCESS_FS_ROUGHLY_READ).1 = 0 ∧
    (main kernelLenientAttach ["lljail", "-r", "/nonexistent", "--", "/bin/true"] []).outcome
      = Outcome.replaced := by
  decide

/-- C6, amended: `populate_ruleset` has no check of the result of `open`; its
result is decided by the attach call alone, being 1 when the attach call is
rejected and 0 otherwise, whatever `open` returned.  So when resolving the path
fails and the attach call, handed the invalid descriptor, is rejected,
`populate_ruleset` returns 1; and in every run of `main` in which a failed
`open` is followed by a rejected attach call, `main` returns 1 and no
`execvpe` call is made. -/
theorem populate_ruleset_unresolved_path (K : Kernel) (w : World) (rfd : Int) (path : String)
    (acc : Nat) :
    (populate_ruleset K w rfd path acc).1
      = (if (attachReply K w rfd path acc).ret ≠ 0 then 1 else 0) ∧
    ∀ (prog : String) (args envp : List String) (pre post : List Event) (ro ra : Reply)
      (rfd1 fd1 : Int) (acc1 : Nat),
      (main K (prog :: args) envp).world.calls
        = pre ++ Event.sys (Call.open_path path) ro
            :: Event.sys (Call.landlock_add_rule rfd1 fd1 acc1) ra :: post →
      ro.ret < 0 → ra.ret ≠ 0 →
      (main K (prog :: args) envp).outcome = Outcome.returned 1 ∧
      ∀ x ∈ (main K (prog :: args) envp).world.calls, x.isExecvpe = false := by
  constructor
  · exact populate_ruleset_fst K w rfd path acc
  · intro prog args envp pre post ro ra rfd1 fd1 acc1 hcalls _ hra
    have h := mainRun_rejection (main_run K (prog :: args) envp)
      (pre ++ [Event.sys (Call.open_path path) ro]) rfd1 fd1 acc1 ra post
      (by rw [hcalls]; simp) hra
    exact ⟨h.1, fun x hx => (h.2.2 x hx).2.2⟩

/-- Witness for C6, amended: a kernel that fails `open` with `ENOENT` and
rejects the attach call with `EBADF`. -/
theorem populate_ruleset_unresolved_path_witness :
    (populate_ruleset kernelRejectAttach
      (World.init.syscall kernelRejectAttach (Call.landlock_create_ruleset 8191)).2
      3 "/nonexistent" 13).1 = 1 ∧
    (main kernelRejectAttach ["lljail", "-r", "/nonexistent", "--", "/bin/true"] []).outcome
      = Outcome.returned 1 :=
  ⟨(populate_ruleset_unresolved_path kernelRejectAttach
      (World.init.syscall kernelRejectAttach (Call.landlock_create_ruleset 8191)).2
      3 "/nonexistent" 13).1.trans (by decide),
   ((populate_ruleset_unresolved_path kernelRejectAttach World.init 3 "/nonexistent" 13).2
      "lljail" ["-r", "/nonexistent", "--", "/bin/true"] []
      [Event.sys (Call.landlock_create_ruleset 8191) ⟨3, 0⟩]
      [Event.sys (Call.close (-1)) ⟨0, 0⟩] ⟨-1, 2⟩ ⟨-1, 9⟩ 3 (-1) 13
      (by decide) (by decide) (by decide)).1⟩

/-! ## Directives are attached in order, then the command is launched -/

theorem directiveTokens_cons (d : Directive) (ds : List Directive) :
    directiveTokens (d :: ds) = d.tokens ++ directiveTokens ds := by
  simp [directiveTokens]

theorem main_loop_directive (K : Kernel) (rfd : Int) (envp : List String) (d : Directive)
    (rest : List String) (w : World) (hd : d.wellFormed) :
    main_loop K rfd envp (d.tokens ++ rest) w
      = if (populate_ruleset K w rfd d.path (effective d.grantClass d.fileOnly)).1 ≠ 0 then
          ⟨(populate_ruleset K w rfd d.path (effective d.grantClass d.fileOnly)).2.perror
            "Could not populate ruleset", Outcome.returned 1⟩
        else main_loop K rfd envp rest
          (populate_ruleset K w rfd d.path (effective d.grantClass d.fileOnly)).2 := by
  obtain ⟨c, f, p⟩ := d
  cases f with
  | true => exact main_loop_flag_file K rfd envp c p rest w
  | false =>
    have hp : p ≠ "file" := by
      rcases hd with h | h
      · simp at h
      · exact h
    exact main_loop_flag_path K rfd envp c p rest w hp

theorem main_loop_directives (K : Kernel) (rfd : Int) (envp : List String)
    (cmd : List String) (ds : List Directive) (w : World)
    (hwf : ∀ d ∈ ds, d.wellFormed)
    (hok : ∀ e ∈ (main_loop K rfd envp (directiveTokens ds ++ "--" :: cmd) w).world.calls,
      e.isExecvpe = false → e.succeeded = true) :
    main_loop K rfd envp (directiveTokens ds ++ "--" :: cmd) w
      = main_rest K rfd envp ("--" :: cmd) (attachAll K rfd ds w) := by
  induction ds generalizing w with
  | nil => simp [directiveTokens, attachAll, main_loop_sep]
  | cons d ds ih =>
    have hd : d.wellFormed := hwf d (by simp)
    rw [directiveTokens_cons, List.append_assoc, main_loop_directive K rfd envp d _ w hd] at hok ⊢
    by_cases hr : (populate_ruleset K w rfd d.path (effective d.grantClass d.fileOnly)).1 = 0
    · rw [if_neg (by simpa using hr)] at hok ⊢
      rw [ih _ (fun x hx => hwf x (by simp [hx])) hok]
      simp [attachAll]
    · exfalso
      rw [if_pos hr] at hok
      obtain ⟨rc, hc⟩ := populate_ruleset_calls K w rfd d.path (effective d.grantClass d.fileOnly)
      have hmem := hok (Event.sys (Call.landlock_add_rule rfd
        (K.sys w.calls (Call.open_path d.path)).ret (effective d.grantClass d.fileOnly))
        (attachReply K w rfd d.path (effective d.grantClass d.fileOnly)))
        (by simp [World.perror, hc]) rfl
      rw [populate_ruleset_fst] at hr
      simp only [Event.succeeded, decide_eq_true_eq] at hmem
      simp [hmem] at hr

theorem main_rest_launch (K : Kernel) (rfd : Int) (envp : List String) (cmd : List String)
    (w : World)
    (hok : ∀ e ∈ (main_rest K rfd envp ("--" :: cmd) w).world.calls,
      e.isExecvpe = false → e.succeeded = true) :
    ∃ (r1 r2 r3 : Reply) (x : Option Int),
      (main_rest K rfd envp ("--" :: cmd) w).world.calls
        = w.calls ++ [Event.sys Call.prctl_no_new_privs r1,
            Event.sys (Call.landlock_restrict_self rfd) r2,
            Event.sys (Call.close rfd) r3,
            Event.execvpe cmd.head? cmd envp x] ∧
      (main_rest K rfd envp ("--" :: cmd) w).outcome
        = (match x with
          | none => Outcome.replaced
          | some _ => Outcome.returned 1) := by
  unfold main_rest at hok ⊢
  simp only [ne_eq, not_true_eq_false, if_false, World.syscall] at hok ⊢
  by_cases h1 : (K.sys w.calls Call.prctl_no_new_privs).ret = 0
  swap
  · exfalso
    simp only [h1, not_false_eq_true, if_true, World.perror] at hok
    have := hok (Event.sys Call.prctl_no_new_privs (K.sys w.calls Call.prctl_no_new_privs))
      (by simp) rfl
    simp [Event.succeeded, h1] at this
  simp only [h1, not_true_eq_false, if_false] at hok ⊢
  generalize hr2 : K.sys (w.calls ++ [Event.sys Call.prctl_no_new_privs
    (K.sys w.calls Call.prctl_no_new_privs)]) (Call.landlock_restrict_self rfd) = r2 at hok ⊢
  by_cases h2 : r2.ret = 0
  swap
  · exfalso
    simp only [h2, not_false_eq_true, if_true, World.perror] at hok
    have := hok (Event.sys (Call.landlock_restrict_self rfd) r2) (by simp) rfl
    simp [Event.succeeded, h2] at this
  simp only [h2, not_true_eq_false, if_false]
  generalize K.sys (w.calls ++ [Event.sys Call.prctl_no_new_privs
    (K.sys w.calls Call.prctl_no_new_privs)] ++ [Event.sys (Call.landlock_restrict_self rfd) r2])
    (Call.close rfd) = r3
  generalize K.execvpe (w.calls ++ [Event.sys Call.prctl_no_new_privs
    (K.sys w.calls Call.prctl_no_new_privs)] ++ [Event.sys (Call.landlock_restrict_self rfd) r2]
    ++ [Event.sys (Call.close rfd) r3]) cmd.head? cmd envp = x
  refine ⟨K.sys w.calls Call.prctl_no_new_privs, r2, r3, x, ?_, ?_⟩
  · rcases x with _ | e <;> simp [World.fprintf]
  · rcases x with _ | e <;> rfl

theorem attachAll_cons (K : Kernel) (rfd : Int) (d : Directive) (ds : List Directive)
    (w : World) :
    attachAll K rfd (d :: ds) w
      = attachAll K rfd ds
          (populate_ruleset K w rfd d.path (effective d.grantClass d.fileOnly)).2 := by
  simp [attachAll]

theorem attachAll_trace (K : Kernel) (rfd : Int) (ds : List Directive) (w : World) :
    openedPaths (attachAll K rfd ds w).calls
      = openedPaths w.calls ++ ds.map Directive.path ∧
    attachedAccess (attachAll K rfd ds w).calls
      = attachedAccess w.calls ++ ds.map (fun d => effective d.grantClass d.fileOnly) ∧
    (attachAll K rfd ds w).calls.filter Event.isExecvpe
      = w.calls.filter Event.isExecvpe := by
  induction ds generalizing w with
  | nil => simp [attachAll]
  | cons d ds ih =>
    obtain ⟨rc, hc⟩ := populate_ruleset_calls K w rfd d.path (effective d.grantClass d.fileOnly)
    rw [attachAll_cons]
    obtain ⟨h1, h2, h3⟩ := ih (populate_ruleset K w rfd d.path
      (effective d.grantClass d.fileOnly)).2
    rw [h1, h2, h3, hc]
    simp [openedPaths, attachedAccess, List.filterMap_append, List.filter_append,
      List.filterMap_cons, List.filter_cons, Event.isExecvpe]

theorem directive_line_head (ds : List Directive) (cmd : List String) :
    (directiveTokens ds ++ "--" :: cmd).head? ≠ some "-h" := by
  cases ds with
  | nil => simp [directiveTokens]
  | cons d ds =>
    rw [directiveTokens_cons]
    simp only [Directive.tokens, List.cons_append, List.head?_cons, ne_eq, Option.some.injEq]
    exact flag_ne_help d.grantClass

theorem main_directives (K : Kernel) (prog : String) (ds : List Directive)
    (cmd : List String) (envp : List String)
    (hwf : ∀ d ∈ ds, d.wellFormed)
    (hok : ∀ e ∈ (main K (prog :: (directiveTokens ds ++ "--" :: cmd)) envp).world.calls,
      e.isExecvpe = false → e.succeeded = true) :
    main K (prog :: (directiveTokens ds ++ "--" :: cmd)) envp
      = main_rest K
          (K.sys [] (Call.landlock_create_ruleset
            (ACCESS_FS_ROUGHLY_READ ||| ACCESS_FS_ROUGHLY_WRITE))).ret
          envp ("--" :: cmd)
          (attachAll K
            (K.sys [] (Call.landlock_create_ruleset
              (ACCESS_FS_ROUGHLY_READ ||| ACCESS_FS_ROUGHLY_WRITE))).ret
            ds
            (World.init.syscall K (Call.landlock_create_ruleset
              (ACCESS_FS_ROUGHLY_READ ||| ACCESS_FS_ROUGHLY_WRITE))).2) := by
  have hh := directive_line_head ds cmd
  unfold main at hok ⊢
  simp only [List.tail_cons, hh, if_false, World.syscall, World.init, List.nil_append] at hok ⊢
  generalize K.sys [] (Call.landlock_create_ruleset
    (ACCESS_FS_ROUGHLY_READ ||| ACCESS_FS_ROUGHLY_WRITE)) = r at hok ⊢
  by_cases hr : r.ret < 0
  · exfalso
    simp only [hr, if_true] at hok
    have := hok (Event.sys (Call.landlock_create_ruleset
      (ACCESS_FS_ROUGHLY_READ ||| ACCESS_FS_ROUGHLY_WRITE)) r)
      (by split_ifs <;> simp [World.perror]) rfl
    simp only [Event.succeeded, decide_eq_true_eq] at this
    omega
  · simp only [hr, if_false] at hok ⊢
    exact main_loop_directives K r.ret envp cmd ds _ hwf hok

/-- Counterexample to C4 as stated: the single directive with class Read, no
file-only modifier and path `file` is written `-r file`; on a kernel where
every call succeeds `main` attaches the path `--` with the file-only mask
instead, takes the command for a flag, and returns 1 without restricting or
launching. -/
theorem main_misreads_path_named_file :
    (∀ e ∈ (main kernelOk
        ("lljail" :: (directiveTokens [⟨AccessClass.Read, false, "file"⟩]
          ++ "--" :: ["/bin/true"])) []).world.calls,
      e.isExecvpe = false → e.succeeded = true) ∧
    openedPaths (main kernelOk
        ("lljail" :: (directiveTokens [⟨AccessClass.Read, false, "file"⟩]
          ++ "--" :: ["/bin/true"])) []).world.calls = ["--"] ∧
    attachedAccess (main kernelOk
        ("lljail" :: (directiveTokens [⟨AccessClass.Read, false, "file"⟩]
          ++ "--" :: ["/bin/true"])) []).world.calls = [effective AccessClass.Read true] ∧
    effective AccessClass.Read true ≠ effective AccessClass.Read false ∧
    (main kernelOk
        ("lljail" :: (directiveTokens [⟨AccessClass.Read, false, "file"⟩]
          ++ "--" :: ["/bin/true"])) []).outcome = Outcome.returned 1 ∧
    ∀ x ∈ (main kernelOk
        ("lljail" :: (directiveTokens [⟨AccessClass.Read, false, "file"⟩]
          ++ "--" :: ["/bin/true"])) []).world.calls,
      x.isPrctl = false ∧ x.isRestrictSelf = false ∧ x.isExecvpe = false := by
  decide

/-- C4, amended: for every sequence of directives in which no directive
without the file-only modifier has the path `file`, written on the command
line flag, `file` iff file-only, path, and followed by `--` and a command:
when every kernel call before the launch succeeds, `main` is the creation of
the ruleset, then one `populate_ruleset` call per directive in directive
order, the i-th with the i-th path and the mask `effective class_i
fileOnly_i`, then the end of `main`; the `open` calls of the trace carry the
paths of the directives in order, the attach calls carry their masks in order,
and the trace ends with `prctl`, `landlock_restrict_self`, `close` and the
`execvpe` of the command. -/
theorem main_attaches_directives_in_order (K : Kernel) (prog : String)
    (ds : List Directive) (cmd : List String) (envp : List String)
    (hwf : ∀ d ∈ ds, d.wellFormed)
    (hok : ∀ e ∈ (main K (prog :: (directiveTokens ds ++ "--" :: cmd)) envp).world.calls,
      e.isExecvpe = false → e.succeeded = true) :
    main K (prog :: (directiveTokens ds ++ "--" :: cmd)) envp
      = main_rest K
          (K.sys [] (Call.landlock_create_ruleset
            (ACCESS_FS_ROUGHLY_READ ||| ACCESS_FS_ROUGHLY_WRITE))).ret
          envp ("--" :: cmd)
          (attachAll K
            (K.sys [] (Call.landlock_create_ruleset
              (ACCESS_FS_ROUGHLY_READ ||| ACCESS_FS_ROUGHLY_WRITE))).ret
            ds
            (World.init.syscall K (Call.landlock_create_ruleset
              (ACCESS_FS_ROUGHLY_READ ||| ACCESS_FS_ROUGHLY_WRITE))).2) ∧
    openedPaths (main K (prog :: (directiveTokens ds ++ "--" :: cmd)) envp).world.calls
      = ds.map Directive.path ∧
    attachedAccess (main K (prog :: (directiveTokens ds ++ "--" :: cmd)) envp).world.calls
      = ds.map (fun d => effective d.grantClass d.fileOnly) ∧
    ∃ (pre : List Event) (r1 r2 r3 : Reply) (x : Option Int),
      (main K (prog :: (directiveTokens ds ++ "--" :: cmd)) envp).world.calls
        = pre ++ [Event.sys Call.prctl_no_new_privs r1,
            Event.sys (Call.landlock_restrict_self
              (K.sys [] (Call.landlock_create_ruleset
                (ACCESS_FS_ROUGHLY_READ ||| ACCESS_FS_ROUGHLY_WRITE))).ret) r2,
            Event.sys (Call.close
              (K.sys [] (Call.landlock_create_ruleset
                (ACCESS_FS_ROUGHLY_READ ||| ACCESS_FS_ROUGHLY_WRITE))).ret) r3,
            Event.execvpe cmd.head? cmd envp x] := by
  have hmain := main_directives K prog ds cmd envp hwf hok
  rw [hmain] at hok
  obtain ⟨r1, r2, r3, x, hcalls, _⟩ := main_rest_launch K _ envp cmd _ hok
  obtain ⟨h1, h2, _⟩ := attachAll_trace K
    (K.sys [] (Call.landlock_create_ruleset
      (ACCESS_FS_ROUGHLY_READ ||| ACCESS_FS_ROUGHLY_WRITE))).ret ds
    (World.init.syscall K (Call.landlock_create_ruleset
      (ACCESS_FS_ROUGHLY_READ ||| ACCESS_FS_ROUGHLY_WRITE))).2
  refine ⟨hmain, ?_, ?_, ⟨_, r1, r2, r3, x, by rw [hmain]; exact hcalls⟩⟩
  · rw [hmain, hcalls]
    simp only [openedPaths] at h1 ⊢
    rw [List.filterMap_append, h1]
    simp [World.syscall, World.init]
  · rw [hmain, hcalls]
    simp only [attachedAccess] at h2 ⊢
    rw [List.filterMap_append, h2]
    simp [World.syscall, World.init]

/-- Witness for C4, amended: `lljail -r /usr -rw file /tmp/x -- /bin/true`. -/
theorem main_attaches_directives_in_order_witness :
    openedPaths (main kernelOk
        ("lljail" :: (directiveTokens
          [⟨AccessClass.Read, false, "/usr"⟩, ⟨AccessClass.ReadWrite, true, "/tmp/x"⟩]
          ++ "--" :: ["/bin/true"])) []).world.calls
      = ([⟨AccessClass.Read, false, "/usr"⟩,
          ⟨AccessClass.ReadWrite, true, "/tmp/x"⟩] : List Directive).map Directive.path ∧
    attachedAccess (main kernelOk
        ("lljail" :: (directiveTokens
          [⟨AccessClass.Read, false, "/usr"⟩, ⟨AccessClass.ReadWrite, true, "/tmp/x"⟩]
          ++ "--" :: ["/bin/true"])) []).world.calls
      = ([⟨AccessClass.Read, false, "/usr"⟩,
          ⟨AccessClass.ReadWrite, true, "/tmp/x"⟩] : List Directive).map
            (fun d => effective d.grantClass d.fileOnly) :=
  ⟨(main_attaches_directives_in_order kernelOk "lljail"
      [⟨AccessClass.Read, false, "/usr"⟩, ⟨AccessClass.ReadWrite, true, "/tmp/x"⟩]
      ["/bin/true"] [] (by decide) (by decide)).2.1,
   (main_attaches_directives_in_order kernelOk "lljail"
      [⟨AccessClass.Read, false, "/usr"⟩, ⟨AccessClass.ReadWrite, true, "/tmp/x"⟩]
      ["/bin/true"] [] (by decide) (by decide)).2.2.1⟩

/-- C5: for every argument vector made of well-formed directives, then `--`,
then a non-empty command `c0 :: crest` (which may contain further `--`
tokens), when every kernel call before the launch succeeds, the trace of
`main` has exactly one `execvpe` call, with program name `c0`, argument vector
`c0 :: crest` unchanged, and the environment `main` received; `main` ends
replaced by the command when that call succeeds and returns 1 when it fails. -/
theorem main_launches_command (K : Kernel) (prog : String) (ds : List Directive)
    (c0 : String) (crest : List String) (envp : List String)
    (hwf : ∀ d ∈ ds, d.wellFormed)
    (hok : ∀ e ∈ (main K (prog :: (directiveTokens ds ++ "--" :: c0 :: crest)) envp).world.calls,
      e.isExecvpe = false → e.succeeded = true) :
    ∃ x : Option Int,
      (main K (prog :: (directiveTokens ds ++ "--" :: c0 :: crest)) envp).world.calls.filter
          Event.isExecvpe
        = [Event.execvpe (some c0) (c0 :: crest) envp x] ∧
      (main K (prog :: (directiveTokens ds ++ "--" :: c0 :: crest)) envp).outcome
        = (match x with
          | none => Outcome.replaced
          | some _ => Outcome.returned 1) := by
  have hmain := main_directives K prog ds (c0 :: crest) envp hwf hok
  rw [hmain] at hok
  obtain ⟨r1, r2, r3, x, hcalls, hout⟩ := main_rest_launch K _ envp (c0 :: crest) _ hok
  obtain ⟨_, _, h3⟩ := attachAll_trace K
    (K.sys [] (Call.landlock_create_ruleset
      (ACCESS_FS_ROUGHLY_READ ||| ACCESS_FS_ROUGHLY_WRITE))).ret ds
    (World.init.syscall K (Call.landlock_create_ruleset
      (ACCESS_FS_ROUGHLY_READ ||| ACCESS_FS_ROUGHLY_WRITE))).2
  refine ⟨x, ?_, by rw [hmain]; exact hout⟩
  rw [hmain, hcalls, List.filter_append, h3]
  simp [World.syscall, World.init, Event.isExecvpe]

/-- Witness for C5: the command `/bin/true -- x` keeps its own `--`. -/
theorem main_launches_command_witness :
    ∃ x : Option Int,
      (main kernelOk ("lljail" :: (directiveTokens
          [⟨AccessClass.Read, false, "/usr"⟩, ⟨AccessClass.Write, true, "/tmp/x"⟩]
          ++ "--" :: "/bin/true" :: ["--", "x"])) ["A=1"]).world.calls.filter Event.isExecvpe
        = [Event.execvpe (some "/bin/true") ("/bin/true" :: ["--", "x"]) ["A=1"] x] ∧
      (main kernelOk ("lljail" :: (directiveTokens
          [⟨AccessClass.Read, false, "/usr"⟩, ⟨AccessClass.Write, true, "/tmp/x"⟩]
          ++ "--" :: "/bin/true" :: ["--", "x"])) ["A=1"]).outcome
        = (match x with
          | none => Outcome.replaced
          | some _ => Outcome.returned 1) :=
  main_launches_command kernelOk "lljail"
    [⟨AccessClass.Read, false, "/usr"⟩, ⟨AccessClass.Write, true, "/tmp/x"⟩]
    "/bin/true" ["--", "x"] ["A=1"] (by decide) (by decide)

end Lljail
